import Mathlib

/-!
# Verification of the travel flight-aggregation core

A shallow embedding, in Lean 4, of the flight search aggregation, caching,
filtering and sorting core of the `travel` repository, together with proofs
and refutations of the specification's claims about it.

Conventions of the embedding:

* Go `uint32` / `uint64` / `int64` values are `Nat` / `Int`; a reduction
  `% 2^32` or `% 2^64` is written exactly where the Go code performs a
  narrowing conversion that can overflow (`uint32(len(...))`, the SHA-256
  word arithmetic, the SHA-256 message bit length).
* Go `float64` arithmetic on scores and weights is embedded as exact
  rational (`ℚ`) arithmetic.
* Go slices are `List`, `nil` errors are `Option`/`Except`, and a Go
  function returning `(T, error)` becomes `Except GoError T` (or the
  result type alone when the source always returns a `nil` error).
* The nondeterministic order in which the four provider goroutines deliver
  their results on the channel in `FlightManager.SearchFlights`
  (`pkg/flightclient/flight_client.go`) is made explicit as an `arrival`
  list of provider indices; theorems quantify over every permutation of
  the registration order.

The sources embedded here are the newest revisions present in the
repository snapshot: `pkg/flightclient/flight_client.go` (aggregator),
the `flight` service revision containing `getOrFetchFlights` /
`generateCacheKey` / `Validate`, the `filterContext`-based filter
revision, `internal/flight/logic_sort.go` (stable sorts, weights
0.45/0.35/0.20), `pkg/flightclient/lionair.go` and the AirAsia adapter
revision with `mapAirAsiaFlights`.
-/

/-! ## Data model (internal/flight/types.go) -/

/-- Wall-clock components of a Go `time.Time` value, which is all the core
logic reads from it (`Hour`, `Minute`, `Second` for the time-of-day filters;
the date part is carried along by the adapters). Absolute-instant arithmetic
(`Unix()`, `time.LoadLocation`) is Go standard-library behaviour backed by
the system timezone database, which is external to this repository; where a
mapper needs it, it is passed in as a function parameter. -/
structure GoDateTime where
  year : ℕ
  month : ℕ
  day : ℕ
  hour : ℕ
  minute : ℕ
  second : ℕ
deriving DecidableEq, Repr

/-- `Airline` of types.go. -/
structure Airline where
  name : String
  code : String
deriving DecidableEq, Repr

/-- `LocationTime` of types.go: `Airport`, `City`, `Datetime`, `Timestamp`. -/
structure LocationTime where
  airport : String
  city : String
  datetime : GoDateTime
  timestamp : ℤ
deriving DecidableEq, Repr

/-- `Duration` of types.go: `TotalMinutes` (uint32), `Formatted`. -/
structure Duration where
  totalMinutes : ℕ
  formatted : String
deriving DecidableEq, Repr

/-- `Price` of types.go: `Amount` (uint64 minor units), `Currency`. -/
structure Price where
  amount : ℕ
  currency : String
deriving DecidableEq, Repr

/-- `Baggage` of types.go. -/
structure Baggage where
  carryOn : String
  checked : String
deriving DecidableEq, Repr

/-- `Flight` of types.go, the normalized record produced by the provider
adapters. `BestValueScore *float64` becomes `Option ℚ` (`none` = nil). -/
structure Flight where
  id : String
  provider : String
  airline : Airline
  flightNumber : String
  departure : LocationTime
  arrival : LocationTime
  duration : Duration
  stops : ℕ
  price : Price
  availableSeats : ℕ
  cabinClass : String
  aircraft : String
  amenities : List String
  baggage : Baggage
  bestValueScore : Option ℚ
deriving DecidableEq, Repr

/-- `ProviderError` of types.go: provider name plus categorized error code
(the `ErrorCode` string type). -/
structure ProviderError where
  provider : String
  code : String
deriving DecidableEq, Repr

/-- `Metadata` of types.go. All counters are uint32 in the source. -/
structure Metadata where
  totalResults : ℕ
  providersQueried : ℕ
  providersSucceeded : ℕ
  providersFailed : ℕ
  providerErrors : List ProviderError
  searchTimeMs : ℕ
  cacheHit : Bool
  cacheKey : String
deriving DecidableEq, Repr

/-- `FlightSearchResponse` of types.go (current revision: metadata and
flights). -/
structure FlightSearchResponse where
  metadata : Metadata
  flights : List Flight
deriving DecidableEq, Repr

/-- `SearchRequest` of types.go. `Passengers` is uint32. -/
structure SearchRequest where
  origin : String
  destination : String
  departureDate : String
  returnDate : String
  passengers : ℕ
  cabinClass : String
deriving DecidableEq, Repr

/-- `PriceRange` of types.go (uint64 bounds). -/
structure PriceRange where
  low : ℕ
  high : ℕ
deriving DecidableEq, Repr

/-- `DepartureTime` of types.go, a time-of-day window; the Go fields are
`From` and `To` (renamed `fromHM`/`toHM` because `from` is a Lean keyword). -/
structure DepartureTime where
  fromHM : String
  toHM : String
deriving DecidableEq, Repr

/-- `ArrivalTime` of types.go, same shape as `DepartureTime`. -/
structure ArrivalTime where
  fromHM : String
  toHM : String
deriving DecidableEq, Repr

/-- `FilterOptions` of types.go; Go nil-able pointers become `Option`. -/
structure FilterOptions where
  priceRange : Option PriceRange
  maxStops : Option ℕ
  departureTime : Option DepartureTime
  arrivalTime : Option ArrivalTime
  airlines : List String
  maxDuration : Option ℕ
deriving DecidableEq, Repr

/-- `SortOptions` of types.go; the Go fields are `By` and `Order` (renamed
`sortBy`/`order` because `by` is a Lean keyword). -/
structure SortOptions where
  sortBy : String
  order : String
deriving DecidableEq, Repr

/-- The `ErrorCode` constant `ErrorCodeTimeout` of types.go. -/
def errorCodeTimeout : String := "TIMEOUT"

/-- The `ErrorCode` constant `ErrorCodeInternalFailure` of types.go. -/
def errorCodeInternalFailure : String := "INTERNAL_FAILURE"

/-! ## Go errors and categorizeError (pkg/flightclient/flight_client.go) -/

/-- The two observations `categorizeError` makes of a Go `error` value:
whether `errors.Is(err, context.DeadlineExceeded)` holds, and the message
returned by `err.Error()`. -/
structure GoError where
  isDeadlineExceeded : Bool
  msg : String
deriving DecidableEq, Repr

/-- Whether `needle` occurs as a contiguous run inside `hay`; the model of
Go `strings.Contains`. -/
def listHasInfix (hay needle : List Char) : Bool :=
  match hay with
  | [] => needle.isEmpty
  | _ :: t => needle.isPrefixOf hay || listHasInfix t needle

/-- Go `strings.Contains s sub`. -/
def strContains (s sub : String) : Bool :=
  listHasInfix s.data sub.data

/-- `categorizeError` of flight_client.go: deadline-exceeded errors and
errors whose message mentions a timeout map to `TIMEOUT`; everything else
is `INTERNAL_FAILURE`. (The `err == nil` branch returning `""` is
unreachable in the embedding, where only actual errors are categorized.) -/
def categorizeError (e : GoError) : String :=
  if e.isDeadlineExceeded || strContains e.msg "timeout"
      || strContains e.msg "deadline exceeded" then
    errorCodeTimeout
  else
    errorCodeInternalFailure

/-! ## The scatter-gather aggregator (pkg/flightclient/flight_client.go) -/

/-- The four providers in registration order: the order of the client
fields of `FlightManager` and of the four goroutine launches in
`SearchFlights`. -/
def providerNames : Fin 4 → String
  | 0 => "AirAsia"
  | 1 => "Batik Air"
  | 2 => "Garuda Indonesia"
  | 3 => "Lion Air"

/-- `providerResult` of flight_client.go: what one provider goroutine
sends on the channel. -/
structure AggProviderResult where
  provider : String
  flights : List Flight
  err : Option GoError
  errorCode : String
deriving DecidableEq, Repr

/-- The body of provider `i`'s goroutine, given the outcome of its client
call plus mapping (`Except.ok` = normalized flights, `Except.error` = the
error of the client call or, for Lion Air, of the mapping): on error it
sends the provider name with the categorized code, otherwise the mapped
flights. -/
def providerTask (outcome : Fin 4 → Except GoError (List Flight)) (i : Fin 4) :
    AggProviderResult :=
  match outcome i with
  | .ok fs => { provider := providerNames i, flights := fs, err := none, errorCode := "" }
  | .error e =>
      { provider := providerNames i, flights := [], err := some e,
        errorCode := categorizeError e }

/-- The local variables of the `for result := range resultChan` collection
loop of `SearchFlights`: `allFlights`, `providerErrors`,
`providersSucceeded`, `providersFailed`. -/
structure AggState where
  allFlights : List Flight
  providerErrors : List ProviderError
  providersSucceeded : ℕ
  providersFailed : ℕ
deriving DecidableEq, Repr

/-- One iteration of the collection loop: a result with `err == nil`
appends its flights and counts a success, any other result counts a
failure and appends a `ProviderError` entry. -/
def collectStep (st : AggState) (r : AggProviderResult) : AggState :=
  match r.err with
  | none =>
      { st with allFlights := st.allFlights ++ r.flights,
                providersSucceeded := st.providersSucceeded + 1 }
  | some _ =>
      { st with providersFailed := st.providersFailed + 1,
                providerErrors :=
                  st.providerErrors ++ [{ provider := r.provider, code := r.errorCode }] }

/-- `FlightManager.SearchFlights` of flight_client.go. The channel yields
the four provider results in completion order, which is nondeterministic;
`arrival` names that order as a list of provider indices (a permutation of
the registration order `[0, 1, 2, 3]` in every real execution — the
goroutines send exactly one result each). The loop folds `collectStep`
over the results in arrival order and the function always returns a
response with a `nil` error (`Except.ok`); `TotalResults` is the Go
narrowing `uint32(len(allFlights))`. Unset metadata fields keep their Go
zero values. -/
def searchFlightsManager (outcome : Fin 4 → Except GoError (List Flight))
    (arrival : List (Fin 4)) : Except GoError FlightSearchResponse :=
  let st := (arrival.map (providerTask outcome)).foldl collectStep
    { allFlights := [], providerErrors := [], providersSucceeded := 0, providersFailed := 0 }
  .ok
    { flights := st.allFlights,
      metadata :=
        { totalResults := st.allFlights.length % 2 ^ 32,
          providersQueried := 4,
          providersSucceeded := st.providersSucceeded,
          providersFailed := st.providersFailed,
          providerErrors := st.providerErrors,
          searchTimeMs := 0,
          cacheHit := false,
          cacheKey := "" } }

/-- The flight list a provider contributes: its mapped flights on success,
nothing on failure. -/
def successFlights (outcome : Fin 4 → Except GoError (List Flight)) (i : Fin 4) :
    List Flight :=
  match outcome i with
  | .ok fs => fs
  | .error _ => []

/-- The merge order the specification asserts: concatenation of the
successful providers' lists in provider registration order. -/
def registrationMerge (outcome : Fin 4 → Except GoError (List Flight)) : List Flight :=
  (List.finRange 4).flatMap (successFlights outcome)

/-! ## SHA-256 (Go crypto/sha256, used by generateCacheKey)

A byte-level implementation over `ℕ`, with `% 2 ^ 32` at every 32-bit
operation. FIPS 180-4, exactly what `sha256.Sum256` computes. -/

/-- Right rotation of a 32-bit word. -/
def rotr32 (n x : ℕ) : ℕ :=
  ((x >>> n) ||| (x <<< (32 - n))) % 2 ^ 32

/-- SHA-256 `Ch(e, f, g)`; the complement is taken within 32 bits. -/
def shaCh (e f g : ℕ) : ℕ :=
  (e &&& f) ^^^ ((e ^^^ 0xffffffff) &&& g)

/-- SHA-256 `Maj(a, b, c)`. -/
def shaMaj (a b c : ℕ) : ℕ :=
  (a &&& b) ^^^ (a &&& c) ^^^ (b &&& c)

/-- SHA-256 `Σ₀`. -/
def bigSigma0 (a : ℕ) : ℕ :=
  rotr32 2 a ^^^ rotr32 13 a ^^^ rotr32 22 a

/-- SHA-256 `Σ₁`. -/
def bigSigma1 (e : ℕ) : ℕ :=
  rotr32 6 e ^^^ rotr32 11 e ^^^ rotr32 25 e

/-- SHA-256 `σ₀`. -/
def smallSigma0 (x : ℕ) : ℕ :=
  rotr32 7 x ^^^ rotr32 18 x ^^^ (x >>> 3)

/-- SHA-256 `σ₁`. -/
def smallSigma1 (x : ℕ) : ℕ :=
  rotr32 17 x ^^^ rotr32 19 x ^^^ (x >>> 10)

/-- The 64 SHA-256 round constants. -/
def shaK : List ℕ :=
  [1116352408, 1899447441, 3049323471, 3921009573,
   961987163, 1508970993, 2453635748, 2870763221,
   3624381080, 310598401, 607225278, 1426881987,
   1925078388, 2162078206, 2614888103, 3248222580,
   3835390401, 4022224774, 264347078, 604807628,
   770255983, 1249150122, 1555081692, 1996064986,
   2554220882, 2821834349, 2952996808, 3210313671,
   3336571891, 3584528711, 113926993, 338241895,
   666307205, 773529912, 1294757372, 1396182291,
   1695183700, 1986661051, 2177026350, 2456956037,
   2730485921, 2820302411, 3259730800, 3345764771,
   3516065817, 3600352804, 4094571909, 275423344,
   430227734, 506948616, 659060556, 883997877,
   958139571, 1322822218, 1537002063, 1747873779,
   1955562222, 2024104815, 2227730452, 2361852424,
   2428436474, 2756734187, 3204031479, 3329325298]

/-- The SHA-256 initial hash value. -/
def shaH0 : List ℕ :=
  [1779033703, 3144134277, 1013904242, 2773480762,
   1359893119, 2600822924, 528734635, 1541459225]

/-- Big-endian packing of bytes into 32-bit words, four at a time. -/
def bytesToWords : List ℕ → List ℕ
  | b0 :: b1 :: b2 :: b3 :: rest =>
      (b0 * 2 ^ 24 + b1 * 2 ^ 16 + b2 * 2 ^ 8 + b3) :: bytesToWords rest
  | _ => []

/-- Extension of the 16-word message schedule by `k` further words. -/
def extendW : List ℕ → ℕ → List ℕ
  | ws, 0 => ws
  | ws, k + 1 =>
      let n := ws.length
      extendW
        (ws ++ [(ws.getD (n - 16) 0 + smallSigma0 (ws.getD (n - 15) 0)
          + ws.getD (n - 7) 0 + smallSigma1 (ws.getD (n - 2) 0)) % 2 ^ 32]) k

/-- The eight SHA-256 working variables. -/
structure ShaState where
  a : ℕ
  b : ℕ
  c : ℕ
  d : ℕ
  e : ℕ
  f : ℕ
  g : ℕ
  h : ℕ
deriving DecidableEq, Repr

/-- One compression round, consuming a pair of round constant and schedule
word. -/
def shaRound (st : ShaState) (kw : ℕ × ℕ) : ShaState :=
  let t1 := (st.h + bigSigma1 st.e + shaCh st.e st.f st.g + kw.1 + kw.2) % 2 ^ 32
  let t2 := (bigSigma0 st.a + shaMaj st.a st.b st.c) % 2 ^ 32
  { a := (t1 + t2) % 2 ^ 32, b := st.a, c := st.b, d := st.c,
    e := (st.d + t1) % 2 ^ 32, f := st.e, g := st.f, h := st.g }

/-- Compression of one 64-byte block into the running hash. -/
def compressBlock (H : List ℕ) (block : List ℕ) : List ℕ :=
  let ws := extendW (bytesToWords block) 48
  let st0 : ShaState :=
    { a := H.getD 0 0, b := H.getD 1 0, c := H.getD 2 0, d := H.getD 3 0,
      e := H.getD 4 0, f := H.getD 5 0, g := H.getD 6 0, h := H.getD 7 0 }
  let st := (shaK.zip ws).foldl shaRound st0
  [(H.getD 0 0 + st.a) % 2 ^ 32, (H.getD 1 0 + st.b) % 2 ^ 32,
   (H.getD 2 0 + st.c) % 2 ^ 32, (H.getD 3 0 + st.d) % 2 ^ 32,
   (H.getD 4 0 + st.e) % 2 ^ 32, (H.getD 5 0 + st.f) % 2 ^ 32,
   (H.getD 6 0 + st.g) % 2 ^ 32, (H.getD 7 0 + st.h) % 2 ^ 32]

/-- `k`-byte big-endian encoding of a natural number. -/
def natToBytesBE (k n : ℕ) : List ℕ :=
  (List.range k).map (fun i => (n >>> (8 * (k - 1 - i))) % 256)

/-- SHA-256 padding: `0x80`, zeros to 56 mod 64, then the 64-bit
big-endian message bit length. -/
def shaPad (msg : List ℕ) : List ℕ :=
  let L := msg.length
  let zeros := (64 - (L + 9) % 64) % 64
  msg ++ [0x80] ++ List.replicate zeros 0 ++ natToBytesBE 8 (8 * L % 2 ^ 64)

/-- Splitting into 64-byte blocks; the fuel argument (instantiated with the
input length) only serves termination and never runs out. -/
def toBlocksAux : ℕ → List ℕ → List (List ℕ)
  | 0, _ => []
  | _, [] => []
  | fuel + 1, bs => bs.take 64 :: toBlocksAux fuel (bs.drop 64)

/-- The SHA-256 digest of a byte sequence, as 32 bytes. -/
def sha256Bytes (msg : List ℕ) : List ℕ :=
  let padded := shaPad msg
  let final := (toBlocksAux padded.length padded).foldl compressBlock shaH0
  final.flatMap (fun w => [(w >>> 24) % 256, (w >>> 16) % 256, (w >>> 8) % 256, w % 256])

/-! ## Hex rendering and UTF-8 (Go fmt "%x" and []byte(string)) -/

/-- A single lowercase hex digit. -/
def hexDigit (n : ℕ) : Char :=
  if n < 10 then Char.ofNat (48 + n) else Char.ofNat (87 + n)

/-- Go `fmt.Sprintf("%x", bytes)`: two lowercase hex digits per byte. -/
def bytesToHexStr (bs : List ℕ) : String :=
  ⟨bs.flatMap (fun b => [hexDigit (b / 16), hexDigit (b % 16)])⟩

/-- UTF-8 encoding of one character. -/
def utf8Char (c : Char) : List ℕ :=
  let n := c.toNat
  if n < 0x80 then [n]
  else if n < 0x800 then [0xc0 + n / 64, 0x80 + n % 64]
  else if n < 0x10000 then
    [0xe0 + n / 4096, 0x80 + n / 64 % 64, 0x80 + n % 64]
  else
    [0xf0 + n / 262144, 0x80 + n / 4096 % 64, 0x80 + n / 64 % 64, 0x80 + n % 64]

/-- Go `[]byte(s)`: the UTF-8 bytes of a string. -/
def utf8Bytes (s : String) : List ℕ :=
  s.data.flatMap utf8Char

/-! ## generateCacheKey (flight service, getOrFetchFlights revision)

```go
key := fmt.Sprintf("flight:%s:%s:%s:%d:%s",
    req.Origin, req.Destination, req.DepartureDate, req.Passengers, req.CabinClass)
hash := sha256.Sum256([]byte(key))
return fmt.Sprintf("flight:search:%x", hash[:16])
```

The return date is not part of the key in this revision (an older service
revision also hashed `req.ReturnDate`; the specification documents the
exclusion, so the newest revision is the one embedded). -/

/-- The pre-hash key string `fmt.Sprintf("flight:%s:%s:%s:%d:%s", ...)`. -/
def cacheKeyString (r : SearchRequest) : String :=
  "flight:" ++ r.origin ++ ":" ++ r.destination ++ ":" ++ r.departureDate
    ++ ":" ++ toString r.passengers ++ ":" ++ r.cabinClass

/-- `generateCacheKey`: namespace tag plus the hex of the first 16 digest
bytes of the SHA-256 of the key string. -/
def generateCacheKey (r : SearchRequest) : String :=
  "flight:search:" ++ bytesToHexStr ((sha256Bytes (utf8Bytes (cacheKeyString r))).take 16)

/-! ## SearchRequest.Validate (flight service, getOrFetchFlights revision) -/

/-- A calendar date as Go's `time.Parse("2006-01-02", ...)` produces it
(midnight UTC); `time.Now().Truncate(24h)` is likewise a date. -/
structure GoDate where
  year : ℕ
  month : ℕ
  day : ℕ
deriving DecidableEq, Repr

/-- `t1.Before(t2)` on midnight-UTC dates: lexicographic comparison. -/
def dateBefore (d1 d2 : GoDate) : Bool :=
  d1.year < d2.year
    || (d1.year == d2.year
        && (d1.month < d2.month || (d1.month == d2.month && d1.day < d2.day)))

/-- The numeric value of a decimal digit character, if it is one. -/
def digitVal (c : Char) : Option ℕ :=
  if '0' ≤ c && c ≤ '9' then some (c.toNat - 48) else none

/-- The Gregorian leap-year rule, as Go's `daysIn` uses it. -/
def isLeapYear (y : ℕ) : Bool :=
  (y % 4 == 0 && y % 100 != 0) || y % 400 == 0

/-- Days in a month, as Go's date validation uses it. -/
def daysInMonth (y m : ℕ) : ℕ :=
  if m == 2 then (if isLeapYear y then 29 else 28)
  else if m == 4 || m == 6 || m == 9 || m == 11 then 30
  else 31

/-- Go `time.Parse("2006-01-02", s)` on the character list of `s`:
exactly four year digits, a dash, two month digits, a dash, two day
digits, nothing after; month in 1..12 and day in range for the month.
Failure is `none`. -/
def goParseDateChars (cs : List Char) : Option GoDate :=
  match cs with
  | [y1, y2, y3, y4, sep1, m1, m2, sep2, d1, d2] =>
      if sep1 = '-' && sep2 = '-' then
        match digitVal y1, digitVal y2, digitVal y3, digitVal y4,
            digitVal m1, digitVal m2, digitVal d1, digitVal d2 with
        | some a, some b, some c, some d, some e, some f, some g, some h =>
            let year := a * 1000 + b * 100 + c * 10 + d
            let month := e * 10 + f
            let day := g * 10 + h
            if 1 ≤ month && month ≤ 12 && 1 ≤ day && day ≤ daysInMonth year month then
              some { year := year, month := month, day := day }
            else
              none
        | _, _, _, _, _, _, _, _ => none
      else
        none
  | _ => none

/-- Go `time.Parse("2006-01-02", s)`. -/
def goParseDate (s : String) : Option GoDate :=
  goParseDateChars s.data

/-- Go `strings.EqualFold`, modelled as equality after per-character
lowercasing (sufficient for the ASCII airport codes it is applied to). -/
def equalFold (s t : String) : Bool :=
  s.data.map Char.toLower == t.data.map Char.toLower

/-- The error codes of the `NewError` calls in `Validate`. Their string
values are defined in a part of the repository outside this snapshot, so
they are modelled as an enumeration; only `none` versus `some` matters to
the callers embedded here. -/
inductive VErrCode where
  | validationErr
  | sameOriginDestination
  | invalidPassengerCount
  | invalidDateFormat
  | departurePast
  | returnBeforeDeparture
deriving DecidableEq, Repr

/-- The `NewError(code, message, 400)` payload `Validate` returns. -/
structure FlightErr where
  code : VErrCode
  message : String
  status : ℕ
deriving DecidableEq, Repr

/-- `SearchRequest.Validate`. `today` stands for
`time.Now().Truncate(24 * time.Hour)`, the only impure input. Returns the
first failing check's error, or `none` when the request is valid. -/
def validate (today : GoDate) (r : SearchRequest) : Option FlightErr :=
  if r.origin.length ≠ 3 then
    some { code := .validationErr, message := "origin must be a 3-letter IATA code", status := 400 }
  else if r.destination.length ≠ 3 then
    some { code := .validationErr, message := "destination must be a 3-letter IATA code", status := 400 }
  else if equalFold r.origin r.destination then
    some { code := .sameOriginDestination, message := "origin and destination cannot be the same", status := 400 }
  else if r.passengers < 1 then
    some { code := .invalidPassengerCount, message := "passengers must be at least 1", status := 400 }
  else if r.passengers > 9 then
    some { code := .invalidPassengerCount, message := "cannot book more than 9 passengers in one search", status := 400 }
  else
    match goParseDate r.departureDate with
    | none =>
        some { code := .invalidDateFormat, message := "invalid departure_date format, expected YYYY-MM-DD", status := 400 }
    | some dep =>
        if dateBefore dep today then
          some { code := .departurePast, message := "departure_date cannot be in the past", status := 400 }
        else if r.returnDate ≠ "" then
          match goParseDate r.returnDate with
          | none =>
              some { code := .invalidDateFormat, message := "invalid return_date format, expected YYYY-MM-DD", status := 400 }
          | some ret =>
              if dateBefore ret dep then
                some { code := .returnBeforeDeparture, message := "return_date cannot be before departure_date", status := 400 }
              else
                none
        else
          none

/-- The five cache-key fields agree: origin, destination, departure date,
passenger count, cabin class. The return date is deliberately not here. -/
def fiveFieldsEq (r1 r2 : SearchRequest) : Prop :=
  r1.origin = r2.origin ∧ r1.destination = r2.destination
    ∧ r1.departureDate = r2.departureDate ∧ r1.passengers = r2.passengers
    ∧ r1.cabinClass = r2.cabinClass

instance (r1 r2 : SearchRequest) : Decidable (fiveFieldsEq r1 r2) := by
  unfold fiveFieldsEq
  infer_instance

/-- The specification's cache-key claim, verbatim: over valid requests the
key is determined by the five fields and differs whenever one of the five
differs. (Refuted below: the key has only `16 ^ 32` possible values while
the valid requests are infinite, so the second half cannot hold.) -/
def cacheKeyClaim : Prop :=
  ∀ (today : GoDate) (r1 r2 : SearchRequest),
    validate today r1 = none → validate today r2 = none →
      (fiveFieldsEq r1 r2 → generateCacheKey r1 = generateCacheKey r2)
        ∧ (¬ fiveFieldsEq r1 r2 → generateCacheKey r1 ≠ generateCacheKey r2)

/-- Big-endian value of a byte list, used to compare truncated digests. -/
def bytesToNatBE : List ℕ → ℕ
  | [] => 0
  | b :: bs => b * 256 ^ bs.length + bytesToNatBE bs

/-! ## Filter engine (flight service, filterContext revision) -/

/-- Go `time.Parse("15:04", s)`: one or two hour digits (two taken when
two are present), a colon, exactly two minute digits, nothing after; hour
in 0..23 and minute in 0..59. Failure is `none`. -/
def goParseHHMM (s : String) : Option (ℕ × ℕ) :=
  match s.data with
  | [c0, c1, c2, c3, c4] =>
      match digitVal c0, digitVal c1, digitVal c3, digitVal c4 with
      | some a, some b, some m1, some m2 =>
          if c2 = ':' then
            let hour := a * 10 + b
            let minute := m1 * 10 + m2
            if hour ≤ 23 && minute ≤ 59 then some (hour, minute) else none
          else
            none
      | _, _, _, _ => none
  | [c0, c1, c2, c3] =>
      match digitVal c0, digitVal c2, digitVal c3 with
      | some a, some m1, some m2 =>
          if c1 = ':' then
            let minute := m1 * 10 + m2
            if a ≤ 23 && minute ≤ 59 then some (a, minute) else none
          else
            none
      | _, _, _ => none
  | _ => none

/-- `parseTimeToSeconds`: seconds since midnight of an HH:MM string, or
`0` when the string does not parse — the parse error is swallowed. -/
def parseTimeToSeconds (timeStr : String) : ℤ :=
  match goParseHHMM timeStr with
  | none => 0
  | some hm => (hm.1 : ℤ) * 3600 + (hm.2 : ℤ) * 60

/-- `getSecondsFromMidnight`. -/
def getSecondsFromMidnight (dt : GoDateTime) : ℤ :=
  (dt.hour : ℤ) * 3600 + (dt.minute : ℤ) * 60 + (dt.second : ℤ)

/-- `filterContext`: the options plus the four window bounds, parsed once.
Unparsed bounds keep the Go zero value `0`. -/
structure FilterContext where
  opts : FilterOptions
  depFrom : ℤ
  depTo : ℤ
  arrFrom : ℤ
  arrTo : ℤ

/-- `newFilterContext`. -/
def newFilterContext (opts : FilterOptions) : FilterContext :=
  { opts := opts,
    depFrom := match opts.departureTime with
      | some dt => parseTimeToSeconds dt.fromHM
      | none => 0,
    depTo := match opts.departureTime with
      | some dt => parseTimeToSeconds dt.toHM
      | none => 0,
    arrFrom := match opts.arrivalTime with
      | some at_ => parseTimeToSeconds at_.fromHM
      | none => 0,
    arrTo := match opts.arrivalTime with
      | some at_ => parseTimeToSeconds at_.toHM
      | none => 0 }

/-- `filterContext.matches`: the conjunction of the active predicates, in
source order — price band, stop ceiling, duration ceiling, departure
window, arrival window, airline allow-list. Each early `return false` of
the source is a conjunct here. -/
def FilterContext.matches (fc : FilterContext) (f : Flight) : Bool :=
  (match fc.opts.priceRange with
   | none => true
   | some pr =>
       !(decide (f.price.amount < pr.low) || decide (f.price.amount > pr.high))) &&
  (match fc.opts.maxStops with
   | none => true
   | some ms => !(decide (f.stops > ms))) &&
  (match fc.opts.maxDuration with
   | none => true
   | some md => !(decide (f.duration.totalMinutes > md))) &&
  (match fc.opts.departureTime with
   | none => true
   | some _ =>
       let depSec := getSecondsFromMidnight f.departure.datetime
       !(decide (depSec < fc.depFrom) || decide (depSec > fc.depTo))) &&
  (match fc.opts.arrivalTime with
   | none => true
   | some _ =>
       let arrSec := getSecondsFromMidnight f.arrival.datetime
       !(decide (arrSec < fc.arrFrom) || decide (arrSec > fc.arrTo))) &&
  (if fc.opts.airlines.length > 0 then
     fc.opts.airlines.any (fun airline =>
       equalFold f.airline.code airline || equalFold f.airline.name airline)
   else true)

/-- `Service.applyFilters` (filterContext revision): build the context
once, keep the flights that match. -/
def applyFilters (flights : List Flight) (opts : FilterOptions) : List Flight :=
  let fc := newFilterContext opts
  flights.filter fc.matches

/-! ## Best-value scoring (internal/flight/logic_sort.go) -/

/-- `priceWeight = 0.45`. -/
def priceWeight : ℚ := 0.45

/-- `durationWeight = 0.35`. -/
def durationWeight : ℚ := 0.35

/-- `stopsWeight = 0.20`. -/
def stopsWeight : ℚ := 0.20

/-- The six min/max variables of `calculateBestValueScores`'s scan. -/
structure ScanBounds where
  minPrice : ℕ
  maxPrice : ℕ
  minDuration : ℕ
  maxDuration : ℕ
  minStops : ℕ
  maxStops : ℕ
deriving DecidableEq, Repr

/-- One scan iteration: the six `if` updates of the source loop. -/
def scanStep (b : ScanBounds) (f : Flight) : ScanBounds :=
  { minPrice := if f.price.amount < b.minPrice then f.price.amount else b.minPrice,
    maxPrice := if f.price.amount > b.maxPrice then f.price.amount else b.maxPrice,
    minDuration := if f.duration.totalMinutes < b.minDuration then f.duration.totalMinutes else b.minDuration,
    maxDuration := if f.duration.totalMinutes > b.maxDuration then f.duration.totalMinutes else b.maxDuration,
    minStops := if f.stops < b.minStops then f.stops else b.minStops,
    maxStops := if f.stops > b.maxStops then f.stops else b.maxStops }

/-- STEP 1 of `calculateBestValueScores`: scan for the bounds, starting
from `math.MaxUint64` / `0` / `math.MaxUint32` as in the source. -/
def bestValueScan (flights : List Flight) : ScanBounds :=
  flights.foldl scanStep
    { minPrice := 2 ^ 64 - 1, maxPrice := 0, minDuration := 2 ^ 32 - 1,
      maxDuration := 0, minStops := 2 ^ 32 - 1, maxStops := 0 }

/-- `normalize` of logic_sort.go (named `normalizeMetric` here because
Mathlib already exports a `normalize`): `1 − (val − min) / (max − min)`,
with every flight scoring a perfect `1.0` when `max == min`. -/
def normalizeMetric (val mn mx : ℚ) : ℚ :=
  if mx > mn then 1 - (val - mn) / (mx - mn) else 1

/-- `calculateBestValueScores` (logic_sort.go revision): scan, then attach
to every flight the weighted sum of the three normalized metrics. -/
def calculateBestValueScores (flights : List Flight) : List Flight :=
  let b := bestValueScan flights
  flights.map (fun f =>
    let score :=
      priceWeight * normalizeMetric (f.price.amount : ℚ) (b.minPrice : ℚ) (b.maxPrice : ℚ)
        + durationWeight * normalizeMetric (f.duration.totalMinutes : ℚ) (b.minDuration : ℚ) (b.maxDuration : ℚ)
        + stopsWeight * normalizeMetric (f.stops : ℚ) (b.minStops : ℚ) (b.maxStops : ℚ)
    { f with bestValueScore := some score })

/-! ## Sorting (internal/flight/logic_sort.go)

Every sort of this revision goes through Go `sort.SliceStable`. Its
documented contract — sort by the strict comparator `less`, keeping
elements that compare equal in their original order — determines the
output uniquely, and `List.mergeSort` with the non-strict complement of
`less` is exactly that sort. -/

/-- Go `sort.SliceStable(flights, less)`. -/
def sortSliceStable (flights : List Flight) (less : Flight → Flight → Bool) : List Flight :=
  flights.mergeSort (fun a b => !(less b a))

/-- `sortByPrice`. -/
def sortByPrice (flights : List Flight) (order : String) : List Flight :=
  sortSliceStable flights (fun i j =>
    if order = "desc" then decide (j.price.amount < i.price.amount)
    else decide (i.price.amount < j.price.amount))

/-- `sortByDuration`. -/
def sortByDuration (flights : List Flight) (order : String) : List Flight :=
  sortSliceStable flights (fun i j =>
    if order = "desc" then decide (j.duration.totalMinutes < i.duration.totalMinutes)
    else decide (i.duration.totalMinutes < j.duration.totalMinutes))

/-- `sortByDepartureTime`. -/
def sortByDepartureTime (flights : List Flight) (order : String) : List Flight :=
  sortSliceStable flights (fun i j =>
    if order = "desc" then decide (j.departure.timestamp < i.departure.timestamp)
    else decide (i.departure.timestamp < j.departure.timestamp))

/-- `sortByArrivalTime`. -/
def sortByArrivalTime (flights : List Flight) (order : String) : List Flight :=
  sortSliceStable flights (fun i j =>
    if order = "desc" then decide (j.arrival.timestamp < i.arrival.timestamp)
    else decide (i.arrival.timestamp < j.arrival.timestamp))

/-- `sortByBestValue`: no-op on lists of at most one flight, otherwise
attach the scores and stably sort by them, a missing score reading as
`0.0`. -/
def sortByBestValue (flights : List Flight) (order : String) : List Flight :=
  if flights.length ≤ 1 then flights
  else
    sortSliceStable (calculateBestValueScores flights) (fun i j =>
      let scoreI := i.bestValueScore.getD 0
      let scoreJ := j.bestValueScore.getD 0
      if order = "desc" then decide (scoreJ < scoreI) else decide (scoreI < scoreJ))

/-- `Service.applySorting` (logic_sort.go revision): lists of at most one
flight are returned as-is; otherwise dispatch on the sort key, an unknown
key logging a warning and returning the copy unchanged. -/
def applySorting (flights : List Flight) (sortOpt : SortOptions) : List Flight :=
  if flights.length ≤ 1 then flights
  else if sortOpt.sortBy = "price" then sortByPrice flights sortOpt.order
  else if sortOpt.sortBy = "duration" then sortByDuration flights sortOpt.order
  else if sortOpt.sortBy = "departure_time" then sortByDepartureTime flights sortOpt.order
  else if sortOpt.sortBy = "arrival_time" then sortByArrivalTime flights sortOpt.order
  else if sortOpt.sortBy = "best_value" then sortByBestValue flights sortOpt.order
  else flights

/-- The comparison value each sort key orders by, read off a flight and
cast into `ℚ` so one statement covers all five keys. Two flights tie for
a key exactly when their `sortKeyQ` values coincide. -/
def sortKeyQ (key : String) (f : Flight) : ℚ :=
  if key = "price" then (f.price.amount : ℚ)
  else if key = "duration" then (f.duration.totalMinutes : ℚ)
  else if key = "departure_time" then (f.departure.timestamp : ℚ)
  else if key = "arrival_time" then (f.arrival.timestamp : ℚ)
  else f.bestValueScore.getD 0

/-- The list the sorted output is a rearrangement of: the input itself,
except that `best_value` sorting of a list longer than one first attaches
scores. Stability is stated relative to this list. -/
def stabilityBaseline (flights : List Flight) (sortOpt : SortOptions) : List Flight :=
  if flights.length ≤ 1 then flights
  else if sortOpt.sortBy = "best_value" then calculateBestValueScores flights
  else flights

/-- `m` is the least element of `l`. -/
def isMinOf (m : ℕ) (l : List ℕ) : Prop :=
  m ∈ l ∧ ∀ x ∈ l, m ≤ x

/-- `m` is the greatest element of `l`. -/
def isMaxOf (m : ℕ) (l : List ℕ) : Prop :=
  m ∈ l ∧ ∀ x ∈ l, x ≤ m

/-! ## AirAsia adapter mapping (mapAirAsiaFlights revision) -/

/-- An entry of `airAsiaFlight.Stops`. -/
structure AirAsiaStop where
  airport : String
deriving DecidableEq, Repr

/-- `airAsiaFlight`: the AirAsia wire record. `DurationHours` is float64,
embedded as `ℚ`. -/
structure AirAsiaFlightRec where
  flightCode : String
  airline : String
  fromAirport : String
  toAirport : String
  departTime : GoDateTime
  arriveTime : GoDateTime
  durationHours : ℚ
  directFlight : Bool
  priceIDR : ℕ
  seats : ℕ
  cabinClass : String
  baggageNote : String
  stops : List AirAsiaStop
deriving DecidableEq, Repr

/-- `airAsiaFlightResponse`. -/
structure AirAsiaFlightResponse where
  status : String
  flights : List AirAsiaFlightRec
deriving DecidableEq, Repr

/-- `uint32(math.Round(x))` for the nonnegative duration values it is
applied to: round half away from zero, then narrow. -/
def goRoundToUint32 (q : ℚ) : ℕ :=
  (Int.floor (q + 1 / 2)).toNat % 2 ^ 32

/-- The stop inference of `mapAirAsiaFlights`: a direct flight has 0
stops; otherwise the length of the stops array, defaulting to 1 when that
array is empty while the flight is reported not direct. -/
def airAsiaStopCount (aaFlight : AirAsiaFlightRec) : ℕ :=
  if !aaFlight.directFlight then
    if aaFlight.stops.length = 0 then 1 else aaFlight.stops.length
  else 0

/-- `mapAirAsiaFlights`. `unixOf` stands for Go `time.Time.Unix()`
(timezone-database arithmetic external to the repository). -/
def mapAirAsiaFlights (unixOf : GoDateTime → ℤ) (resp : AirAsiaFlightResponse) :
    List Flight :=
  resp.flights.map (fun aaFlight =>
    let totalMinutes := goRoundToUint32 (aaFlight.durationHours * 60)
    let hours := totalMinutes / 60
    let minutes := totalMinutes % 60
    let formattedDuration := toString hours ++ "h " ++ toString minutes ++ "m"
    let stopCount : ℕ := airAsiaStopCount aaFlight
    { id := aaFlight.flightCode ++ "_" ++ aaFlight.airline,
      provider := "AirAsia",
      airline := { name := aaFlight.airline, code := ⟨aaFlight.flightCode.data.take 2⟩ },
      flightNumber := aaFlight.flightCode,
      departure :=
        { airport := aaFlight.fromAirport, city := "",
          datetime := aaFlight.departTime, timestamp := unixOf aaFlight.departTime },
      arrival :=
        { airport := aaFlight.toAirport, city := "",
          datetime := aaFlight.arriveTime, timestamp := unixOf aaFlight.arriveTime },
      duration := { totalMinutes := totalMinutes, formatted := formattedDuration },
      stops := stopCount,
      price := { amount := aaFlight.priceIDR, currency := "IDR" },
      availableSeats := aaFlight.seats,
      cabinClass := aaFlight.cabinClass,
      aircraft := "",
      amenities := [],
      baggage := { carryOn := "", checked := aaFlight.baggageNote },
      bestValueScore := none })

/-! ## Lion Air adapter mapping (pkg/flightclient/lionair.go) -/

/-- `lionAirCarrier`. -/
structure LionAirCarrier where
  name : String
  iata : String
deriving DecidableEq, Repr

/-- `lionAirLocation`. -/
structure LionAirLocation where
  code : String
  name : String
  city : String
deriving DecidableEq, Repr

/-- `lionAirRoute`; the Go fields are `From`/`To` (renamed, Lean keyword). -/
structure LionAirRoute where
  fromLoc : LionAirLocation
  toLoc : LionAirLocation
deriving DecidableEq, Repr

/-- `lionAirSchedule`: wall-clock times parsed without timezone, plus the
timezone names to apply. -/
structure LionAirSchedule where
  departure : GoDateTime
  departureTimezone : String
  arrival : GoDateTime
  arrivalTimezone : String
deriving DecidableEq, Repr

/-- `lionAirLayover`. -/
structure LionAirLayover where
  airport : String
deriving DecidableEq, Repr

/-- `lionAirPricing`. -/
structure LionAirPricing where
  total : ℕ
  currency : String
  fareType : String
deriving DecidableEq, Repr

/-- `lionAirBaggage`. -/
structure LionAirBaggage where
  cabin : String
  hold : String
deriving DecidableEq, Repr

/-- `lionAirServices`. -/
structure LionAirServices where
  wifiAvailable : Bool
  mealsIncluded : Bool
  baggageAllowance : LionAirBaggage
deriving DecidableEq, Repr

/-- `LionAirFlight`: the Lion Air wire record. `StopCount` carries
`omitempty`, so an absent count reads as `0`. -/
structure LionAirFlightRec where
  id : String
  carrier : LionAirCarrier
  route : LionAirRoute
  schedule : LionAirSchedule
  flightTime : ℕ
  isDirect : Bool
  stopCount : ℕ
  layovers : List LionAirLayover
  pricing : LionAirPricing
  seatsLeft : ℕ
  planeType : String
  services : LionAirServices
deriving DecidableEq, Repr

/-- `lionAirFlightData` / `LionAirFlightResponse`. -/
structure LionAirFlightResponse where
  availableFlights : List LionAirFlightRec
deriving DecidableEq, Repr

/-- The stop computation of `mapLionAirFlights`: the explicit `StopCount`
field, overridden by the layover count only when the flight is not direct,
the field is zero and the layover list is non-empty — so a not-direct
flight with no count and no layovers keeps `0`. -/
def lionAirStopCount (lFlight : LionAirFlightRec) : ℕ :=
  if !lFlight.isDirect && decide (lFlight.stopCount = 0)
      && decide (lFlight.layovers.length > 0) then
    lFlight.layovers.length
  else
    lFlight.stopCount

/-- `mapLionAirFlights`. `applyTz` stands for `FlightManager.applyTimezone`
(Go `time.LoadLocation` plus wall-clock reconstruction, backed by the
system timezone database, external to the repository) and `unixOf` for
`time.Time.Unix()`; an `applyTz` error aborts the whole mapping, as in
the source. -/
def mapLionAirFlights (applyTz : GoDateTime → String → Except GoError GoDateTime)
    (unixOf : GoDateTime → ℤ) (resp : LionAirFlightResponse) :
    Except GoError (List Flight) :=
  resp.availableFlights.mapM (fun lFlight => do
    let departureTime ← applyTz lFlight.schedule.departure lFlight.schedule.departureTimezone
    let arrivalTime ← applyTz lFlight.schedule.arrival lFlight.schedule.arrivalTimezone
    let totalMinutes := lFlight.flightTime
    let hours := totalMinutes / 60
    let minutes := totalMinutes % 60
    let formattedDuration := toString hours ++ "h " ++ toString minutes ++ "m"
    let stopCount : ℕ := lionAirStopCount lFlight
    let amenities :=
      (if lFlight.services.wifiAvailable then ["Wi-Fi"] else [])
        ++ (if lFlight.services.mealsIncluded then ["Meal"] else [])
    pure
      { id := lFlight.id,
        provider := lFlight.carrier.name,
        airline := { name := lFlight.carrier.name, code := lFlight.carrier.iata },
        flightNumber := lFlight.id,
        departure :=
          { airport := lFlight.route.fromLoc.code, city := lFlight.route.fromLoc.city,
            datetime := departureTime, timestamp := unixOf departureTime },
        arrival :=
          { airport := lFlight.route.toLoc.code, city := lFlight.route.toLoc.city,
            datetime := arrivalTime, timestamp := unixOf arrivalTime },
        duration := { totalMinutes := totalMinutes, formatted := formattedDuration },
        stops := stopCount,
        price := { amount := lFlight.pricing.total, currency := lFlight.pricing.currency },
        availableSeats := lFlight.seatsLeft,
        cabinClass := lFlight.pricing.fareType,
        aircraft := lFlight.planeType,
        amenities := amenities,
        baggage :=
          { carryOn := lFlight.services.baggageAllowance.cabin,
            checked := lFlight.services.baggageAllowance.hold },
        bestValueScore := none })

/-! ## Claims about the aggregator, as stated by the specification -/

/-- The specification's merge-order claim, verbatim: for every outcome and
every completion order, the merged list is the registration-order
concatenation of the successful lists. (Refuted below: the collection
loop appends in completion order.) -/
def mergeOrderClaim : Prop :=
  ∀ (outcome : Fin 4 → Except GoError (List Flight)) (arrival : List (Fin 4)),
    arrival.Perm (List.finRange 4) →
      ∀ resp, searchFlightsManager outcome arrival = .ok resp →
        resp.flights = registrationMerge outcome

/-- The metadata-consistency claim, verbatim: queried is 4, succeeded plus
failed is queried, `TotalResults` is the exact flight count and there is
one error entry per failure. (Refuted below: `TotalResults` is
`uint32(len(...))`, which truncates.) -/
def metadataInvariantClaim : Prop :=
  ∀ (outcome : Fin 4 → Except GoError (List Flight)) (arrival : List (Fin 4)),
    arrival.Perm (List.finRange 4) →
      ∀ resp, searchFlightsManager outcome arrival = .ok resp →
        resp.metadata.providersQueried = 4
          ∧ resp.metadata.providersSucceeded + resp.metadata.providersFailed
              = resp.metadata.providersQueried
          ∧ resp.metadata.totalResults = resp.flights.length
          ∧ resp.metadata.providerErrors.length = resp.metadata.providersFailed

/-- The per-provider `ProviderError` entries a run produces, in the given
order of provider indices. -/
def providerErrorEntries (outcome : Fin 4 → Except GoError (List Flight))
    (is : List (Fin 4)) : List ProviderError :=
  is.flatMap (fun i =>
    match outcome i with
    | .ok _ => []
    | .error e => [{ provider := providerNames i, code := categorizeError e }])

/-- How many of the given providers succeeded. -/
def succCount (outcome : Fin 4 → Except GoError (List Flight))
    (is : List (Fin 4)) : ℕ :=
  (is.filter (fun i =>
    match outcome i with
    | .ok _ => true
    | .error _ => false)).length

/-- How many of the given providers failed. -/
def failCount (outcome : Fin 4 → Except GoError (List Flight))
    (is : List (Fin 4)) : ℕ :=
  (is.filter (fun i =>
    match outcome i with
    | .ok _ => false
    | .error _ => true)).length

/-- The response `SearchFlights` builds for a given outcome and
completion order — named so that facts about its fields can be stated
without re-spelling the record. -/
def managerResponse (outcome : Fin 4 → Except GoError (List Flight))
    (arrival : List (Fin 4)) : FlightSearchResponse :=
  { flights := arrival.flatMap (successFlights outcome),
    metadata :=
      { totalResults := (arrival.flatMap (successFlights outcome)).length % 2 ^ 32,
        providersQueried := 4,
        providersSucceeded := succCount outcome arrival,
        providersFailed := failCount outcome arrival,
        providerErrors := providerErrorEntries outcome arrival,
        searchTimeMs := 0, cacheHit := false, cacheKey := "" } }

/-! ## Concrete fixtures for witnesses and counterexamples -/

/-- A normalized flight with the given identity, price, duration, stop
count and endpoint times; the remaining fields are fixed innocuous
values. -/
def sampleFlight (idStr : String) (amount durMin stopsN : ℕ)
    (dep arr : GoDateTime) : Flight :=
  { id := idStr, provider := "AirAsia", airline := { name := "AirAsia", code := "QZ" },
    flightNumber := idStr,
    departure := { airport := "CGK", city := "", datetime := dep, timestamp := 1765750000 },
    arrival := { airport := "DPS", city := "", datetime := arr, timestamp := 1765760000 },
    duration := { totalMinutes := durMin, formatted := "" },
    stops := stopsN,
    price := { amount := amount, currency := "IDR" },
    availableSeats := 10, cabinClass := "economy", aircraft := "",
    amenities := [], baggage := { carryOn := "", checked := "" },
    bestValueScore := none }

/-- 06:00 on the sample date. -/
def tSixAM : GoDateTime := { year := 2025, month := 12, day := 15, hour := 6, minute := 0, second := 0 }

/-- 09:30 on the sample date. -/
def tNineThirty : GoDateTime := { year := 2025, month := 12, day := 15, hour := 9, minute := 30, second := 0 }

/-- Midnight exactly on the sample date. -/
def tMidnight : GoDateTime := { year := 2025, month := 12, day := 15, hour := 0, minute := 0, second := 0 }

/-- An error whose message matches neither timeout test. -/
def errDecode : GoError := { isDeadlineExceeded := false, msg := "failed to decode json response" }

/-- A deadline-exceeded error. -/
def errTimedOut : GoError := { isDeadlineExceeded := true, msg := "context deadline exceeded" }

/-- A flight contributed by the first-registered provider. -/
def flightAA : Flight := sampleFlight "QZ7510_AirAsia" 500000 100 0 tSixAM tNineThirty

/-- A flight contributed by the second-registered provider. -/
def flightBA : Flight := sampleFlight "ID6330" 650000 150 1 tSixAM tNineThirty

/-- Outcome for the merge-order refutation: the first two providers
succeed with one flight each, the rest fail. -/
def outTwoOk : Fin 4 → Except GoError (List Flight) := fun i =>
  match i with
  | 0 => .ok [flightAA]
  | 1 => .ok [flightBA]
  | _ => .error errDecode

/-- Outcome for the `TotalResults` refutation: the first provider returns
`2 ^ 32` flights (so `uint32(len(...))` wraps to 0), the rest fail. -/
def outBig : Fin 4 → Except GoError (List Flight) := fun i =>
  if i = 0 then .ok (List.replicate (2 ^ 32) flightAA) else .error errDecode

/-- All four providers fail with the same decode error. -/
def errAllDecode : Fin 4 → GoError := fun _ => errDecode

/-- A valid one-way request. -/
def reqA : SearchRequest :=
  { origin := "CGK", destination := "DPS", departureDate := "2025-12-15",
    returnDate := "", passengers := 1, cabinClass := "economy" }

/-- `reqA` with a return date: identical in all five key fields. -/
def reqB : SearchRequest := { reqA with returnDate := "2025-12-20" }

/-- `reqA` with a different return date, for the key-stability witness. -/
def reqB2 : SearchRequest := { reqA with returnDate := "2025-12-27" }

/-- `reqA` in a different cabin class: differs in a key field. -/
def reqC : SearchRequest := { reqA with cabinClass := "business" }

/-- The `today` instant the validity fixtures are checked against. -/
def today0 : GoDate := { year := 2025, month := 1, day := 1 }

/-- `reqA` with an `n`-character cabin class: an infinite family of valid
requests that pairwise differ in a key field. -/
def cabinReq (n : ℕ) : SearchRequest := { reqA with cabinClass := ⟨List.replicate n 'a'⟩ }

/-- The first 16 digest bytes of a request's cache key hash, as a number
below `256 ^ 16`; two requests with the same value get the same cache
key. -/
def truncatedKeyHash (r : SearchRequest) : ℕ :=
  bytesToNatBE ((sha256Bytes (utf8Bytes (cacheKeyString r))).take 16)

/-- A timezone application that always succeeds and keeps the wall clock;
enough to drive `mapLionAirFlights` over a concrete response. -/
def tzIdentity : GoDateTime → String → Except GoError GoDateTime := fun t _ => .ok t

/-- A trivial `Unix()` stand-in for concrete evaluations. -/
def unixZero : GoDateTime → ℤ := fun _ => 0

/-- The failing Lion Air wire flight: reported not direct, no explicit
stop count, empty layover list. -/
def lionNoLayoverFlight : LionAirFlightRec :=
  { id := "JT-204",
    carrier := { name := "Lion Air", iata := "JT" },
    route :=
      { fromLoc := { code := "CGK", name := "Soekarno-Hatta", city := "Jakarta" },
        toLoc := { code := "DPS", name := "Ngurah Rai", city := "Denpasar" } },
    schedule :=
      { departure := { year := 2025, month := 12, day := 15, hour := 5, minute := 30, second := 0 },
        departureTimezone := "Asia/Jakarta",
        arrival := { year := 2025, month := 12, day := 15, hour := 8, minute := 20, second := 0 },
        arrivalTimezone := "Asia/Makassar" },
    flightTime := 110, isDirect := false, stopCount := 0, layovers := [],
    pricing := { total := 750000, currency := "IDR", fareType := "economy" },
    seatsLeft := 12, planeType := "Boeing 737-900ER",
    services :=
      { wifiAvailable := false, mealsIncluded := false,
        baggageAllowance := { cabin := "7kg", hold := "20kg" } } }

/-- A Lion Air response containing only the failing flight. -/
def lionNoLayoverResponse : LionAirFlightResponse :=
  { availableFlights := [lionNoLayoverFlight] }

/-- A departure window whose bounds are both malformed. -/
def optsBadDepWindow : FilterOptions :=
  { priceRange := none, maxStops := none,
    departureTime := some { fromHM := "banana", toHM := "99:99" },
    arrivalTime := none, airlines := [], maxDuration := none }

/-- A flight departing exactly at midnight. -/
def flightMidnight : Flight := sampleFlight "QZ0000" 400000 90 0 tMidnight tNineThirty

/-- The three flights of the specification's worked best-value example:
prices 500000/650000/900000, durations 100/150/200 minutes, 0/1/2 stops. -/
def specExampleFlights : List Flight :=
  [sampleFlight "F1" 500000 100 0 tSixAM tNineThirty,
   sampleFlight "F2" 650000 150 1 tSixAM tNineThirty,
   sampleFlight "F3" 900000 200 2 tSixAM tNineThirty]

/-! # Theorems

General lemmas first, then one theorem per claim (with its witness or
counterexample), in claim order. -/

/-! ## The aggregator's collection loop -/

/-- What the collection loop computes over any result order: flights are
appended in that order, error entries likewise, and the two counters count
successes and failures. -/
theorem collect_spec (outcome : Fin 4 → Except GoError (List Flight))
    (is : List (Fin 4)) (st : AggState) :
    (is.map (providerTask outcome)).foldl collectStep st =
      { allFlights := st.allFlights ++ is.flatMap (successFlights outcome),
        providerErrors := st.providerErrors ++ providerErrorEntries outcome is,
        providersSucceeded := st.providersSucceeded + succCount outcome is,
        providersFailed := st.providersFailed + failCount outcome is } := by
  induction is generalizing st with
  | nil =>
      cases st
      simp [providerErrorEntries, succCount, failCount]
  | cons i tl ih =>
      cases ho : outcome i with
      | ok fs =>
          simp only [List.map_cons, List.foldl_cons, providerTask, ho, collectStep, ih,
            providerErrorEntries, succCount, failCount, List.flatMap_cons, successFlights,
            List.filter_cons]
          simp [List.append_assoc, Nat.add_assoc, Nat.add_comm, Nat.add_left_comm]
      | error e =>
          simp only [List.map_cons, List.foldl_cons, providerTask, ho, collectStep, ih,
            providerErrorEntries, succCount, failCount, List.flatMap_cons, successFlights,
            List.filter_cons]
          simp [List.append_assoc, Nat.add_assoc, Nat.add_comm, Nat.add_left_comm]

/-- `FlightManager.SearchFlights` in closed form: always a `nil` error,
flights concatenated in completion order, metadata counted off the
results. -/
theorem searchFlightsManager_eq (outcome : Fin 4 → Except GoError (List Flight))
    (arrival : List (Fin 4)) :
    searchFlightsManager outcome arrival = .ok (managerResponse outcome arrival) := by
  simp [searchFlightsManager, collect_spec, managerResponse]

/-- The `TotalResults` field of the built response, at symbolic arguments. -/
theorem managerResponse_totalResults (outcome : Fin 4 → Except GoError (List Flight))
    (arrival : List (Fin 4)) :
    (managerResponse outcome arrival).metadata.totalResults
      = (arrival.flatMap (successFlights outcome)).length % 2 ^ 32 := rfl

/-- The flights of the built response, at symbolic arguments. -/
theorem managerResponse_flights (outcome : Fin 4 → Except GoError (List Flight))
    (arrival : List (Fin 4)) :
    (managerResponse outcome arrival).flights = arrival.flatMap (successFlights outcome) := rfl

/-- Every provider is counted exactly once, as a success or a failure. -/
theorem succCount_add_failCount (outcome : Fin 4 → Except GoError (List Flight))
    (is : List (Fin 4)) :
    succCount outcome is + failCount outcome is = is.length := by
  induction is with
  | nil => simp [succCount, failCount]
  | cons i tl ih =>
      cases ho : outcome i <;>
        simp [succCount, failCount, List.filter_cons, ho] at ih ⊢ <;> omega

/-- One `ProviderError` entry per failed provider. -/
theorem length_providerErrorEntries (outcome : Fin 4 → Except GoError (List Flight))
    (is : List (Fin 4)) :
    (providerErrorEntries outcome is).length = failCount outcome is := by
  induction is with
  | nil => simp [providerErrorEntries, failCount]
  | cons i tl ih =>
      cases ho : outcome i <;>
        simp [providerErrorEntries, failCount, List.filter_cons, ho] at ih ⊢ <;> omega

/-- With every provider failing, no flights are merged. -/
theorem flights_allFail (err : Fin 4 → GoError) (is : List (Fin 4)) :
    is.flatMap (successFlights (fun i => .error (err i))) = [] := by
  induction is with
  | nil => rfl
  | cons i tl ih => simp [List.flatMap_cons, successFlights, ih]

/-- With every provider failing, no successes are counted. -/
theorem succCount_allFail (err : Fin 4 → GoError) (is : List (Fin 4)) :
    succCount (fun i => .error (err i)) is = 0 := by
  unfold succCount
  induction is with
  | nil => rfl
  | cons i tl ih => simp [List.filter_cons, ih]

/-- With every provider failing, every provider is counted as a failure. -/
theorem failCount_allFail (err : Fin 4 → GoError) (is : List (Fin 4)) :
    failCount (fun i => .error (err i)) is = is.length := by
  unfold failCount
  induction is with
  | nil => rfl
  | cons i tl ih => simp [List.filter_cons, ih]

/-- With every provider failing, the error entries are exactly one
categorized entry per provider, in completion order. -/
theorem entries_allFail (err : Fin 4 → GoError) (is : List (Fin 4)) :
    providerErrorEntries (fun i => .error (err i)) is =
      is.map (fun i => { provider := providerNames i, code := categorizeError (err i) }) := by
  unfold providerErrorEntries
  induction is with
  | nil => rfl
  | cons i tl ih => simp [List.flatMap_cons, ih]

/-- C1: when all four provider calls fail — by timeout or otherwise — the
aggregator still returns a `nil` error together with a response holding an
empty flight list, `ProvidersSucceeded = 0`, `ProvidersFailed = 4`, and
one categorized `ProviderError` entry per provider (the entries list the
four registered providers exactly once each, in completion order). -/
theorem searchFlights_allFail (err : Fin 4 → GoError) (arrival : List (Fin 4))
    (hperm : arrival.Perm (List.finRange 4)) :
    searchFlightsManager (fun i => .error (err i)) arrival =
      .ok
        { flights := [],
          metadata :=
            { totalResults := 0, providersQueried := 4, providersSucceeded := 0,
              providersFailed := 4,
              providerErrors := arrival.map (fun i =>
                { provider := providerNames i, code := categorizeError (err i) }),
              searchTimeMs := 0, cacheHit := false, cacheKey := "" } }
      ∧ ((arrival.map (fun i =>
          ({ provider := providerNames i, code := categorizeError (err i) } : ProviderError))).map
            (fun pe => pe.provider)).Perm ((List.finRange 4).map providerNames) := by
  have hlen : arrival.length = 4 := by
    simpa using hperm.length_eq
  constructor
  · rw [searchFlightsManager_eq]
    simp [managerResponse, flights_allFail, succCount_allFail, failCount_allFail,
      entries_allFail, hlen]
  · rw [List.map_map]
    exact hperm.map _

/-- Witness for C1 at a concrete input: all providers fail with a decode
error and results arrive in registration order. -/
theorem searchFlights_allFail_witness :
    (List.finRange 4).Perm (List.finRange 4)
    ∧ searchFlightsManager (fun i => .error (errAllDecode i)) (List.finRange 4) =
        .ok
          { flights := [],
            metadata :=
              { totalResults := 0, providersQueried := 4, providersSucceeded := 0,
                providersFailed := 4,
                providerErrors := (List.finRange 4).map (fun i =>
                  { provider := providerNames i, code := categorizeError (errAllDecode i) }),
                searchTimeMs := 0, cacheHit := false, cacheKey := "" } } :=
  ⟨List.Perm.refl _, (searchFlights_allFail errAllDecode (List.finRange 4) (List.Perm.refl _)).1⟩

/-- C5 counterexample: with the first two providers succeeding and the
channel delivering the second provider's result first, the merged list is
`[flightBA, flightAA]`, not the registration-order `[flightAA, flightBA]`
— the collection loop appends in completion order, so the specification's
registration-order merge claim is false. -/
theorem mergeOrderClaim_false : ¬ mergeOrderClaim := by
  intro h
  have h2 := h outTwoOk [1, 0, 2, 3] (by decide) _ (searchFlightsManager_eq outTwoOk [1, 0, 2, 3])
  exact absurd h2 (by decide)

/-- C5 amended: the merged flight list is the concatenation of the
successful providers' lists in completion (channel-arrival) order, without
deduplication; as a multiset — but not as an ordered list — it equals the
registration-order concatenation for every completion order. -/
theorem searchFlights_merge_completion_order (outcome : Fin 4 → Except GoError (List Flight))
    (arrival : List (Fin 4)) (hperm : arrival.Perm (List.finRange 4)) :
    ∃ resp, searchFlightsManager outcome arrival = .ok resp
      ∧ resp.flights = arrival.flatMap (successFlights outcome)
      ∧ resp.flights.Perm (registrationMerge outcome) := by
  refine ⟨_, searchFlightsManager_eq outcome arrival, rfl, ?_⟩
  exact hperm.flatMap_right _

/-- Witness for the amended C5 at a concrete input: completion order
`[1, 0, 2, 3]`. -/
theorem searchFlights_merge_completion_order_witness :
    ([1, 0, 2, 3] : List (Fin 4)).Perm (List.finRange 4)
    ∧ ∃ resp, searchFlightsManager outTwoOk [1, 0, 2, 3] = .ok resp
        ∧ resp.flights = ([1, 0, 2, 3] : List (Fin 4)).flatMap (successFlights outTwoOk)
        ∧ resp.flights.Perm (registrationMerge outTwoOk) :=
  ⟨by decide, searchFlights_merge_completion_order outTwoOk [1, 0, 2, 3] (by decide)⟩

/-- The length of the big fixture's merged list is exactly `2 ^ 32`. -/
theorem outBig_flights_length :
    (((List.finRange 4).flatMap (successFlights outBig)).length) = 2 ^ 32 := by
  rw [show List.finRange 4 = ([0, 1, 2, 3] : List (Fin 4)) from by decide]
  rw [List.flatMap_cons, List.flatMap_cons, List.flatMap_cons, List.flatMap_cons,
    List.flatMap_nil, List.append_nil, List.length_append, List.length_append,
    List.length_append]
  rw [show successFlights outBig 0 = List.replicate (2 ^ 32) flightAA from rfl,
    List.length_replicate,
    show (successFlights outBig 1).length = 0 from rfl,
    show (successFlights outBig 2).length = 0 from rfl,
    show (successFlights outBig 3).length = 0 from rfl]
  norm_num

/-- C9 counterexample: `TotalResults` is the Go narrowing
`uint32(len(allFlights))`; when one provider returns `2 ^ 32` flights the
stored count wraps to `0` and no longer equals the length of the flights
list, so the exact-equality claim is false. -/
theorem metadataInvariantClaim_false : ¬ metadataInvariantClaim := by
  intro h
  have h2 := (h outBig (List.finRange 4) (List.Perm.refl _) _
    (searchFlightsManager_eq outBig (List.finRange 4))).2.2.1
  have p1 := managerResponse_totalResults outBig (List.finRange 4)
  have p2 := congrArg List.length (managerResponse_flights outBig (List.finRange 4))
  have chain : (2 : ℕ) ^ 32 % 2 ^ 32 = 2 ^ 32 :=
    ((congrArg (fun x => x % 2 ^ 32) outBig_flights_length).symm.trans
      (p1.symm.trans (h2.trans p2))).trans outBig_flights_length
  have hzero : (0 : ℕ) = 2 ^ 32 := (Nat.mod_self (2 ^ 32)).symm.trans chain
  exact absurd hzero.symm
    (Nat.pos_iff_ne_zero.mp (Nat.pos_pow_of_pos 32 (by norm_num)))

/-- C9 amended: every response satisfies `ProvidersQueried = 4`,
`ProvidersSucceeded + ProvidersFailed = ProvidersQueried`, one
`ProviderError` entry per failure, and `TotalResults` equal to the flight
count reduced modulo `2 ^ 32` — hence equal to the flight count itself
whenever that count is below `2 ^ 32`. -/
theorem searchFlights_metadata_invariant (outcome : Fin 4 → Except GoError (List Flight))
    (arrival : List (Fin 4)) (hperm : arrival.Perm (List.finRange 4)) :
    ∀ resp, searchFlightsManager outcome arrival = .ok resp →
      resp.metadata.providersQueried = 4
        ∧ resp.metadata.providersSucceeded + resp.metadata.providersFailed
            = resp.metadata.providersQueried
        ∧ resp.metadata.totalResults = resp.flights.length % 2 ^ 32
        ∧ (resp.flights.length < 2 ^ 32 →
            resp.metadata.totalResults = resp.flights.length)
        ∧ resp.metadata.providerErrors.length = resp.metadata.providersFailed := by
  intro resp h
  rw [searchFlightsManager_eq] at h
  obtain rfl := Except.ok.inj h
  refine ⟨rfl, ?_, rfl, fun hlt => Nat.mod_eq_of_lt hlt, length_providerErrorEntries _ _⟩
  have hlen : arrival.length = 4 := by simpa using hperm.length_eq
  show succCount outcome arrival + failCount outcome arrival = 4
  rw [succCount_add_failCount, hlen]

/-- Witness for the amended C9 at a concrete input: two successes, two
failures, completion order `[2, 0, 3, 1]`. -/
theorem searchFlights_metadata_invariant_witness :
    ([2, 0, 3, 1] : List (Fin 4)).Perm (List.finRange 4)
    ∧ (∀ resp, searchFlightsManager outTwoOk [2, 0, 3, 1] = .ok resp →
        resp.metadata.providersQueried = 4
          ∧ resp.metadata.providersSucceeded + resp.metadata.providersFailed
              = resp.metadata.providersQueried
          ∧ resp.metadata.totalResults = resp.flights.length % 2 ^ 32
          ∧ (resp.flights.length < 2 ^ 32 →
              resp.metadata.totalResults = resp.flights.length)
          ∧ resp.metadata.providerErrors.length = resp.metadata.providersFailed) :=
  ⟨by decide, searchFlights_metadata_invariant outTwoOk [2, 0, 3, 1] (by decide)⟩

/-! ## Cache key, filters, adapters -/

/-- C6: two search requests that agree on origin, destination, departure
date, passenger count and cabin class get byte-for-byte identical cache
keys no matter what their return dates are — the return date does not
participate in `generateCacheKey`. -/
theorem generateCacheKey_ignores_returnDate (r1 r2 : SearchRequest)
    (h1 : r1.origin = r2.origin) (h2 : r1.destination = r2.destination)
    (h3 : r1.departureDate = r2.departureDate) (h4 : r1.passengers = r2.passengers)
    (h5 : r1.cabinClass = r2.cabinClass) :
    generateCacheKey r1 = generateCacheKey r2 := by
  simp only [generateCacheKey, cacheKeyString, h1, h2, h3, h4, h5]

/-- Witness for C6: `reqB` and `reqB2` differ only in their return dates
and share a cache key. -/
theorem generateCacheKey_ignores_returnDate_witness :
    reqB.returnDate ≠ reqB2.returnDate
      ∧ generateCacheKey reqB = generateCacheKey reqB2 :=
  ⟨by decide, generateCacheKey_ignores_returnDate reqB reqB2 rfl rfl rfl rfl rfl⟩

/-- C7: filtering is idempotent — applying `applyFilters` twice with the
same options returns exactly the list a single application returns, for
every flight list and every `FilterOptions`. -/
theorem applyFilters_idempotent (flights : List Flight) (opts : FilterOptions) :
    applyFilters (applyFilters flights opts) opts = applyFilters flights opts := by
  simp only [applyFilters, List.filter_filter, Bool.and_self]

/-- C8: evaluating `mapLionAirFlights` at the failing input — a Lion Air
flight reported not direct, with no explicit stop count and an empty
layover list — produces a normalized flight with a stop count of `0`,
not the `at least 1` the stop-inference rule promises (contrast the
AirAsia mapper, which defaults such a flight to 1 stop). -/
theorem mapLionAirFlights_zero_stops :
    ∃ fs, mapLionAirFlights tzIdentity unixZero lionNoLayoverResponse = .ok fs
      ∧ fs.map (fun f => f.stops) = [0] :=
  ⟨_, rfl, rfl⟩

/-- The AirAsia mapper does implement the rule: a not-direct AirAsia
flight gets at least one stop, even when the provider's stops array is
empty. -/
theorem airAsiaStopCount_pos (aa : AirAsiaFlightRec) (h : aa.directFlight = false) :
    1 ≤ airAsiaStopCount aa := by
  simp only [airAsiaStopCount, h, Bool.not_false, if_true]
  split <;> omega

/-- The normalized stop counts the AirAsia mapper emits are exactly
`airAsiaStopCount` of the wire records, in order. -/
theorem mapAirAsiaFlights_stops (unixOf : GoDateTime → ℤ) (resp : AirAsiaFlightResponse) :
    (mapAirAsiaFlights unixOf resp).map (fun f => f.stops)
      = resp.flights.map airAsiaStopCount := by
  simp [mapAirAsiaFlights, List.map_map, Function.comp]

/-- C10: a time-of-day bound that does not parse in `"15:04"` format makes
`parseTimeToSeconds` return `0` instead of an error; consequently, when a
departure (or arrival) window's `To` bound is malformed, every flight
surviving `applyFilters` departs (arrives) exactly at second zero of the
day — any flight strictly after midnight is silently rejected rather than
the filter failing or being ignored. -/
theorem parseTimeToSeconds_malformed :
    (∀ s, goParseHHMM s = none → parseTimeToSeconds s = 0)
    ∧ (∀ (opts : FilterOptions) (flights : List Flight) (f : Flight) (dt : DepartureTime),
        opts.departureTime = some dt → goParseHHMM dt.toHM = none →
          f ∈ applyFilters flights opts →
            getSecondsFromMidnight f.departure.datetime = 0)
    ∧ (∀ (opts : FilterOptions) (flights : List Flight) (f : Flight) (at_ : ArrivalTime),
        opts.arrivalTime = some at_ → goParseHHMM at_.toHM = none →
          f ∈ applyFilters flights opts →
            getSecondsFromMidnight f.arrival.datetime = 0) := by
  have base : ∀ s, goParseHHMM s = none → parseTimeToSeconds s = 0 := by
    intro s h
    simp [parseTimeToSeconds, h]
  refine ⟨base, ?_, ?_⟩
  · intro opts flights f dt hdt hbad hf
    simp only [applyFilters, List.mem_filter] at hf
    have hm := hf.2
    simp only [FilterContext.matches, show (newFilterContext opts).opts = opts from rfl,
      hdt, Bool.and_eq_true] at hm
    have hwin := hm.1.1.2
    have hto : (newFilterContext opts).depTo = 0 := by
      simp [newFilterContext, hdt, base dt.toHM hbad]
    rw [hto] at hwin
    simp only [Bool.not_eq_true', Bool.or_eq_false_iff, decide_eq_false_iff_not,
      not_lt] at hwin
    have hnn : 0 ≤ getSecondsFromMidnight f.departure.datetime := by
      simp only [getSecondsFromMidnight]
      positivity
    omega
  · intro opts flights f at_ hat hbad hf
    simp only [applyFilters, List.mem_filter] at hf
    have hm := hf.2
    simp only [FilterContext.matches, show (newFilterContext opts).opts = opts from rfl,
      hat, Bool.and_eq_true] at hm
    have hwin := hm.1.2
    have hto : (newFilterContext opts).arrTo = 0 := by
      simp [newFilterContext, hat, base at_.toHM hbad]
    rw [hto] at hwin
    simp only [Bool.not_eq_true', Bool.or_eq_false_iff, decide_eq_false_iff_not,
      not_lt] at hwin
    have hnn : 0 ≤ getSecondsFromMidnight f.arrival.datetime := by
      simp only [getSecondsFromMidnight]
      positivity
    omega

/-- Witness for C10: a window with both bounds malformed keeps only the
flight departing exactly at midnight, and the malformed bound parses to
`0`. -/
theorem parseTimeToSeconds_malformed_witness :
    goParseHHMM "99:99" = none
    ∧ optsBadDepWindow.departureTime = some { fromHM := "banana", toHM := "99:99" }
    ∧ flightMidnight ∈ applyFilters [flightMidnight] optsBadDepWindow
    ∧ parseTimeToSeconds "99:99" = 0
    ∧ getSecondsFromMidnight flightMidnight.departure.datetime = 0 := by
  refine ⟨by decide, rfl, by decide, ?_, ?_⟩
  · exact parseTimeToSeconds_malformed.1 "99:99" (by decide)
  · exact parseTimeToSeconds_malformed.2.1 optsBadDepWindow [flightMidnight] flightMidnight
      { fromHM := "banana", toHM := "99:99" } rfl (by decide) (by decide)

/-! ## Best-value scoring -/

/-- The running minimum fold is a lower bound of the initial value and of
every element. -/
theorem foldl_min_le (l : List ℕ) (B : ℕ) :
    (l.foldl (fun m x => if x < m then x else m) B) ≤ B
      ∧ ∀ x ∈ l, (l.foldl (fun m x => if x < m then x else m) B) ≤ x := by
  induction l generalizing B with
  | nil => simp
  | cons a tl ih =>
      simp only [List.foldl_cons, List.mem_cons]
      by_cases hab : a < B
      · simp only [if_pos hab]
        obtain ⟨h1, h2⟩ := ih a
        refine ⟨by omega, ?_⟩
        intro x hx
        rcases hx with rfl | hx
        · omega
        · exact h2 x hx
      · simp only [if_neg hab]
        obtain ⟨h1, h2⟩ := ih B
        refine ⟨h1, ?_⟩
        intro x hx
        rcases hx with rfl | hx
        · omega
        · exact h2 x hx

/-- The running minimum fold returns the initial value or an element. -/
theorem foldl_min_mem (l : List ℕ) (B : ℕ) :
    (l.foldl (fun m x => if x < m then x else m) B) = B
      ∨ (l.foldl (fun m x => if x < m then x else m) B) ∈ l := by
  induction l generalizing B with
  | nil => simp
  | cons a tl ih =>
      simp only [List.foldl_cons, List.mem_cons]
      rcases ih (if a < B then a else B) with h | h
      · rw [h]
        split
        · exact Or.inr (Or.inl rfl)
        · exact Or.inl rfl
      · exact Or.inr (Or.inr h)

/-- With the initial value dominating every element, the running minimum
fold computes the least element of a non-empty list. -/
theorem foldl_min_spec (l : List ℕ) (B : ℕ) (hB : ∀ x ∈ l, x ≤ B) (hne : l ≠ []) :
    isMinOf (l.foldl (fun m x => if x < m then x else m) B) l := by
  obtain ⟨hle, hlb⟩ := foldl_min_le l B
  rcases foldl_min_mem l B with h | h
  · obtain ⟨y, hy⟩ := List.exists_mem_of_ne_nil l hne
    have : l.foldl (fun m x => if x < m then x else m) B = y := by
      have := hlb y hy
      have := hB y hy
      omega
    exact ⟨this ▸ hy, hlb⟩
  · exact ⟨h, hlb⟩

/-- The running maximum fold is an upper bound of the initial value and of
every element. -/
theorem foldl_max_ge (l : List ℕ) (B : ℕ) :
    B ≤ (l.foldl (fun m x => if x > m then x else m) B)
      ∧ ∀ x ∈ l, x ≤ (l.foldl (fun m x => if x > m then x else m) B) := by
  induction l generalizing B with
  | nil => simp
  | cons a tl ih =>
      simp only [List.foldl_cons, List.mem_cons]
      by_cases hab : a > B
      · simp only [if_pos hab]
        obtain ⟨h1, h2⟩ := ih a
        refine ⟨by omega, ?_⟩
        intro x hx
        rcases hx with rfl | hx
        · omega
        · exact h2 x hx
      · simp only [if_neg hab]
        obtain ⟨h1, h2⟩ := ih B
        refine ⟨h1, ?_⟩
        intro x hx
        rcases hx with rfl | hx
        · omega
        · exact h2 x hx

/-- The running maximum fold returns the initial value or an element. -/
theorem foldl_max_mem (l : List ℕ) (B : ℕ) :
    (l.foldl (fun m x => if x > m then x else m) B) = B
      ∨ (l.foldl (fun m x => if x > m then x else m) B) ∈ l := by
  induction l generalizing B with
  | nil => simp
  | cons a tl ih =>
      simp only [List.foldl_cons, List.mem_cons]
      rcases ih (if a > B then a else B) with h | h
      · rw [h]
        split
        · exact Or.inr (Or.inl rfl)
        · exact Or.inl rfl
      · exact Or.inr (Or.inr h)

/-- With the initial value below every element, the running maximum fold
computes the greatest element of a non-empty list. -/
theorem foldl_max_spec (l : List ℕ) (B : ℕ) (hB : ∀ x ∈ l, B ≤ x) (hne : l ≠ []) :
    isMaxOf (l.foldl (fun m x => if x > m then x else m) B) l := by
  obtain ⟨hge, hub⟩ := foldl_max_ge l B
  rcases foldl_max_mem l B with h | h
  · obtain ⟨y, hy⟩ := List.exists_mem_of_ne_nil l hne
    have : l.foldl (fun m x => if x > m then x else m) B = y := by
      have := hub y hy
      have := hB y hy
      omega
    exact ⟨this ▸ hy, hub⟩
  · exact ⟨h, hub⟩

/-- The six components of the scan evolve independently: each is the
corresponding single-metric fold. -/
theorem bestValueScan_proj (fs : List Flight) (b : ScanBounds) :
    (fs.foldl scanStep b).minPrice
        = (fs.map (fun f => f.price.amount)).foldl (fun m x => if x < m then x else m) b.minPrice
      ∧ (fs.foldl scanStep b).maxPrice
        = (fs.map (fun f => f.price.amount)).foldl (fun m x => if x > m then x else m) b.maxPrice
      ∧ (fs.foldl scanStep b).minDuration
        = (fs.map (fun f => f.duration.totalMinutes)).foldl (fun m x => if x < m then x else m) b.minDuration
      ∧ (fs.foldl scanStep b).maxDuration
        = (fs.map (fun f => f.duration.totalMinutes)).foldl (fun m x => if x > m then x else m) b.maxDuration
      ∧ (fs.foldl scanStep b).minStops
        = (fs.map (fun f => f.stops)).foldl (fun m x => if x < m then x else m) b.minStops
      ∧ (fs.foldl scanStep b).maxStops
        = (fs.map (fun f => f.stops)).foldl (fun m x => if x > m then x else m) b.maxStops := by
  induction fs generalizing b with
  | nil => simp
  | cons f tl ih =>
      simp only [List.foldl_cons, List.map_cons]
      exact ih (scanStep b f)

/-- C3: on any non-empty candidate list (of in-range uint64/uint32
values), the best-value scorer finds the true minima and maxima of price,
duration and stop count over that list, attaches to every flight the
composite score `0.45·normPrice + 0.35·normDuration + 0.20·normStops`
with each metric normalized as `1 − (value − min)/(max − min)` over the
list's own bounds (a metric with `max = min` contributing `1`), and in
particular scores every flight exactly `1` when all flights share
identical price, duration and stop count. -/
theorem calculateBestValueScores_spec (fs : List Flight) (hne : fs ≠ [])
    (hb : ∀ f ∈ fs, f.price.amount < 2 ^ 64 ∧ f.duration.totalMinutes < 2 ^ 32
      ∧ f.stops < 2 ^ 32) :
    (isMinOf (bestValueScan fs).minPrice (fs.map (fun f => f.price.amount))
      ∧ isMaxOf (bestValueScan fs).maxPrice (fs.map (fun f => f.price.amount))
      ∧ isMinOf (bestValueScan fs).minDuration (fs.map (fun f => f.duration.totalMinutes))
      ∧ isMaxOf (bestValueScan fs).maxDuration (fs.map (fun f => f.duration.totalMinutes))
      ∧ isMinOf (bestValueScan fs).minStops (fs.map (fun f => f.stops))
      ∧ isMaxOf (bestValueScan fs).maxStops (fs.map (fun f => f.stops)))
    ∧ calculateBestValueScores fs = fs.map (fun f =>
        { f with bestValueScore := some (
            0.45 * normalizeMetric (f.price.amount : ℚ)
                ((bestValueScan fs).minPrice : ℚ) ((bestValueScan fs).maxPrice : ℚ)
              + 0.35 * normalizeMetric (f.duration.totalMinutes : ℚ)
                ((bestValueScan fs).minDuration : ℚ) ((bestValueScan fs).maxDuration : ℚ)
              + 0.20 * normalizeMetric (f.stops : ℚ)
                ((bestValueScan fs).minStops : ℚ) ((bestValueScan fs).maxStops : ℚ)) })
    ∧ (∀ p d s0, (∀ f ∈ fs, f.price.amount = p ∧ f.duration.totalMinutes = d ∧ f.stops = s0) →
        ∀ g ∈ calculateBestValueScores fs, g.bestValueScore = some 1) := by
  obtain ⟨e1, e2, e3, e4, e5, e6⟩ := bestValueScan_proj fs
    { minPrice := 2 ^ 64 - 1, maxPrice := 0, minDuration := 2 ^ 32 - 1,
      maxDuration := 0, minStops := 2 ^ 32 - 1, maxStops := 0 }
  have hne1 : fs.map (fun f => f.price.amount) ≠ [] := by simpa using hne
  have hne2 : fs.map (fun f => f.duration.totalMinutes) ≠ [] := by simpa using hne
  have hne3 : fs.map (fun f => f.stops) ≠ [] := by simpa using hne
  have m1 : isMinOf (bestValueScan fs).minPrice (fs.map (fun f => f.price.amount)) := by
    rw [show (bestValueScan fs).minPrice = _ from e1]
    refine foldl_min_spec _ _ ?_ hne1
    intro x hx
    obtain ⟨f, hf, rfl⟩ := List.mem_map.mp hx
    have := (hb f hf).1
    show f.price.amount ≤ 2 ^ 64 - 1
    omega
  have m2 : isMaxOf (bestValueScan fs).maxPrice (fs.map (fun f => f.price.amount)) := by
    rw [show (bestValueScan fs).maxPrice = _ from e2]
    exact foldl_max_spec _ _ (fun x _ => Nat.zero_le x) hne1
  have m3 : isMinOf (bestValueScan fs).minDuration (fs.map (fun f => f.duration.totalMinutes)) := by
    rw [show (bestValueScan fs).minDuration = _ from e3]
    refine foldl_min_spec _ _ ?_ hne2
    intro x hx
    obtain ⟨f, hf, rfl⟩ := List.mem_map.mp hx
    have := (hb f hf).2.1
    show f.duration.totalMinutes ≤ 2 ^ 32 - 1
    omega
  have m4 : isMaxOf (bestValueScan fs).maxDuration (fs.map (fun f => f.duration.totalMinutes)) := by
    rw [show (bestValueScan fs).maxDuration = _ from e4]
    exact foldl_max_spec _ _ (fun x _ => Nat.zero_le x) hne2
  have m5 : isMinOf (bestValueScan fs).minStops (fs.map (fun f => f.stops)) := by
    rw [show (bestValueScan fs).minStops = _ from e5]
    refine foldl_min_spec _ _ ?_ hne3
    intro x hx
    obtain ⟨f, hf, rfl⟩ := List.mem_map.mp hx
    have := (hb f hf).2.2
    show f.stops ≤ 2 ^ 32 - 1
    omega
  have m6 : isMaxOf (bestValueScan fs).maxStops (fs.map (fun f => f.stops)) := by
    rw [show (bestValueScan fs).maxStops = _ from e6]
    exact foldl_max_spec _ _ (fun x _ => Nat.zero_le x) hne3
  have heq : calculateBestValueScores fs = fs.map (fun f =>
      { f with bestValueScore := some (
          0.45 * normalizeMetric (f.price.amount : ℚ)
              ((bestValueScan fs).minPrice : ℚ) ((bestValueScan fs).maxPrice : ℚ)
            + 0.35 * normalizeMetric (f.duration.totalMinutes : ℚ)
              ((bestValueScan fs).minDuration : ℚ) ((bestValueScan fs).maxDuration : ℚ)
            + 0.20 * normalizeMetric (f.stops : ℚ)
              ((bestValueScan fs).minStops : ℚ) ((bestValueScan fs).maxStops : ℚ)) }) := rfl
  refine ⟨⟨m1, m2, m3, m4, m5, m6⟩, heq, ?_⟩
  intro p d s0 hall g hg
  rw [heq] at hg
  obtain ⟨f, hf, rfl⟩ := List.mem_map.mp hg
  have hminp : (bestValueScan fs).minPrice = p := by
    obtain ⟨fm, hfm, hfe⟩ := List.mem_map.mp m1.1
    rw [← hfe, (hall fm hfm).1]
  have hmaxp : (bestValueScan fs).maxPrice = p := by
    obtain ⟨fm, hfm, hfe⟩ := List.mem_map.mp m2.1
    rw [← hfe, (hall fm hfm).1]
  have hmind : (bestValueScan fs).minDuration = d := by
    obtain ⟨fm, hfm, hfe⟩ := List.mem_map.mp m3.1
    rw [← hfe, (hall fm hfm).2.1]
  have hmaxd : (bestValueScan fs).maxDuration = d := by
    obtain ⟨fm, hfm, hfe⟩ := List.mem_map.mp m4.1
    rw [← hfe, (hall fm hfm).2.1]
  have hmins : (bestValueScan fs).minStops = s0 := by
    obtain ⟨fm, hfm, hfe⟩ := List.mem_map.mp m5.1
    rw [← hfe, (hall fm hfm).2.2]
  have hmaxs : (bestValueScan fs).maxStops = s0 := by
    obtain ⟨fm, hfm, hfe⟩ := List.mem_map.mp m6.1
    rw [← hfe, (hall fm hfm).2.2]
  simp only [hminp, hmaxp, hmind, hmaxd, hmins, hmaxs, normalizeMetric, lt_self_iff_false,
    if_false, gt_iff_lt]
  norm_num

/-- Witness for C3 at the specification's worked example (prices
500000/650000/900000, durations 100/150/200, stops 0/1/2): the
hypotheses hold, the theorem applies, and — checked by evaluation — the
attached composite scores are exactly `1`, `0.55625` and `0`. -/
theorem calculateBestValueScores_spec_witness :
    specExampleFlights ≠ []
    ∧ (∀ f ∈ specExampleFlights, f.price.amount < 2 ^ 64
        ∧ f.duration.totalMinutes < 2 ^ 32 ∧ f.stops < 2 ^ 32)
    ∧ isMinOf (bestValueScan specExampleFlights).minPrice
        (specExampleFlights.map (fun f => f.price.amount))
    ∧ isMaxOf (bestValueScan specExampleFlights).maxPrice
        (specExampleFlights.map (fun f => f.price.amount))
    ∧ calculateBestValueScores specExampleFlights = specExampleFlights.map (fun f =>
        { f with bestValueScore := some (
            0.45 * normalizeMetric (f.price.amount : ℚ)
                ((bestValueScan specExampleFlights).minPrice : ℚ)
                ((bestValueScan specExampleFlights).maxPrice : ℚ)
              + 0.35 * normalizeMetric (f.duration.totalMinutes : ℚ)
                ((bestValueScan specExampleFlights).minDuration : ℚ)
                ((bestValueScan specExampleFlights).maxDuration : ℚ)
              + 0.20 * normalizeMetric (f.stops : ℚ)
                ((bestValueScan specExampleFlights).minStops : ℚ)
                ((bestValueScan specExampleFlights).maxStops : ℚ)) })
    ∧ (calculateBestValueScores specExampleFlights).map (fun g => g.bestValueScore)
        = [some 1, some (89 / 160), some 0]
    ∧ (∀ g ∈ calculateBestValueScores [flightAA, flightAA], g.bestValueScore = some 1) := by
  have h1 : specExampleFlights ≠ [] := by decide
  have h2 : ∀ f ∈ specExampleFlights, f.price.amount < 2 ^ 64
      ∧ f.duration.totalMinutes < 2 ^ 32 ∧ f.stops < 2 ^ 32 := by decide
  obtain ⟨⟨m1, m2, _⟩, heq, _⟩ := calculateBestValueScores_spec specExampleFlights h1 h2
  have h1' : ([flightAA, flightAA] : List Flight) ≠ [] := by decide
  have h2' : ∀ f ∈ ([flightAA, flightAA] : List Flight), f.price.amount < 2 ^ 64
      ∧ f.duration.totalMinutes < 2 ^ 32 ∧ f.stops < 2 ^ 32 := by decide
  have hdeg := (calculateBestValueScores_spec [flightAA, flightAA] h1' h2').2.2
    500000 100 0 (by decide)
  have hscan : bestValueScan specExampleFlights =
      { minPrice := 500000, maxPrice := 900000, minDuration := 100, maxDuration := 200,
        minStops := 0, maxStops := 2 } := by decide
  have hscores : (calculateBestValueScores specExampleFlights).map (fun g => g.bestValueScore)
      = [some 1, some (89 / 160), some 0] := by
    rw [heq, List.map_map, hscan]
    simp only [specExampleFlights, sampleFlight, List.map_cons, List.map_nil,
      Function.comp_apply]
    norm_num [normalizeMetric]
  exact ⟨h1, h2, m1, m2, heq, hscores, hdeg⟩

/-! ## Sorting stability -/

/-- Stability of a stable sort, in filter form: the sorted list restricted
to any one predicate class that the order cannot separate equals the input
restricted to that class — tied elements keep their original relative
order. -/
theorem mergeSort_filter_stable {α : Type} (le : α → α → Bool)
    (htrans : ∀ a b c, le a b → le b c → le a c)
    (htotal : ∀ a b, le a b || le b a)
    (p : α → Bool) (htie : ∀ a b, p a → p b → le a b)
    (l : List α) :
    (l.mergeSort le).filter p = l.filter p := by
  have hpair : (l.filter p).Pairwise (fun a b => le a b = true) :=
    List.pairwise_of_forall_mem_list (fun a ha b hb =>
      htie a b (List.mem_filter.mp ha).2 (List.mem_filter.mp hb).2)
  have hsub : List.Sublist (l.filter p) (l.mergeSort le) :=
    List.sublist_mergeSort htrans htotal hpair (List.filter_sublist l)
  have hself : (l.filter p).filter p = l.filter p :=
    List.filter_eq_self.mpr (fun a ha => (List.mem_filter.mp ha).2)
  have hsub2 : List.Sublist (l.filter p) ((l.mergeSort le).filter p) := by
    have h := hsub.filter p
    rwa [hself] at h
  have hlen : (l.filter p).length = ((l.mergeSort le).filter p).length :=
    (((List.mergeSort_perm l le).filter p).length_eq).symm
  exact (hsub2.eq_of_length hlen).symm

/-- `sortSliceStable` with an ascending key-based comparator preserves the
order within every key class. -/
theorem sortSliceStable_filter_asc {β : Type} [LinearOrder β]
    (k : Flight → β) (less : Flight → Flight → Bool)
    (hless : ∀ a b, less a b = decide (k a < k b)) (l : List Flight) (v : β) :
    (sortSliceStable l less).filter (fun f => decide (k f = v))
      = l.filter (fun f => decide (k f = v)) := by
  unfold sortSliceStable
  apply mergeSort_filter_stable
  · intro a b c hab hbc
    simp only [hless, Bool.not_eq_true', decide_eq_false_iff_not, not_lt] at hab hbc ⊢
    exact le_trans hab hbc
  · intro a b
    simp only [hless, Bool.or_eq_true, Bool.not_eq_true', decide_eq_false_iff_not, not_lt]
    exact le_total (k b) (k a) |>.symm
  · intro a b ha hb
    simp only [decide_eq_true_eq] at ha hb
    simp only [hless, Bool.not_eq_true', decide_eq_false_iff_not, not_lt, ha, hb, le_refl]

/-- `sortSliceStable` with a descending key-based comparator preserves the
order within every key class. -/
theorem sortSliceStable_filter_desc {β : Type} [LinearOrder β]
    (k : Flight → β) (less : Flight → Flight → Bool)
    (hless : ∀ a b, less a b = decide (k b < k a)) (l : List Flight) (v : β) :
    (sortSliceStable l less).filter (fun f => decide (k f = v))
      = l.filter (fun f => decide (k f = v)) := by
  unfold sortSliceStable
  apply mergeSort_filter_stable
  · intro a b c hab hbc
    simp only [hless, Bool.not_eq_true', decide_eq_false_iff_not, not_lt] at hab hbc ⊢
    exact le_trans hbc hab
  · intro a b
    simp only [hless, Bool.or_eq_true, Bool.not_eq_true', decide_eq_false_iff_not, not_lt]
    exact le_total (k a) (k b) |>.symm
  · intro a b ha hb
    simp only [decide_eq_true_eq] at ha hb
    simp only [hless, Bool.not_eq_true', decide_eq_false_iff_not, not_lt, ha, hb, le_refl]

/-- Filter-stability of `sortByPrice`, for both orders. -/
theorem sortByPrice_filter (flights : List Flight) (order : String) (v : ℚ) :
    (sortByPrice flights order).filter (fun f => decide ((f.price.amount : ℚ) = v))
      = flights.filter (fun f => decide ((f.price.amount : ℚ) = v)) := by
  unfold sortByPrice
  by_cases horder : order = "desc"
  · refine sortSliceStable_filter_desc (fun f => (f.price.amount : ℚ)) _ ?_ flights v
    intro a b
    rw [if_pos horder]
    exact decide_eq_decide.mpr Nat.cast_lt.symm
  · refine sortSliceStable_filter_asc (fun f => (f.price.amount : ℚ)) _ ?_ flights v
    intro a b
    rw [if_neg horder]
    exact decide_eq_decide.mpr Nat.cast_lt.symm

/-- Filter-stability of `sortByDuration`, for both orders. -/
theorem sortByDuration_filter (flights : List Flight) (order : String) (v : ℚ) :
    (sortByDuration flights order).filter (fun f => decide ((f.duration.totalMinutes : ℚ) = v))
      = flights.filter (fun f => decide ((f.duration.totalMinutes : ℚ) = v)) := by
  unfold sortByDuration
  by_cases horder : order = "desc"
  · refine sortSliceStable_filter_desc (fun f => (f.duration.totalMinutes : ℚ)) _ ?_ flights v
    intro a b
    rw [if_pos horder]
    exact decide_eq_decide.mpr Nat.cast_lt.symm
  · refine sortSliceStable_filter_asc (fun f => (f.duration.totalMinutes : ℚ)) _ ?_ flights v
    intro a b
    rw [if_neg horder]
    exact decide_eq_decide.mpr Nat.cast_lt.symm

/-- Filter-stability of `sortByDepartureTime`, for both orders. -/
theorem sortByDepartureTime_filter (flights : List Flight) (order : String) (v : ℚ) :
    (sortByDepartureTime flights order).filter (fun f => decide ((f.departure.timestamp : ℚ) = v))
      = flights.filter (fun f => decide ((f.departure.timestamp : ℚ) = v)) := by
  unfold sortByDepartureTime
  by_cases horder : order = "desc"
  · refine sortSliceStable_filter_desc (fun f => (f.departure.timestamp : ℚ)) _ ?_ flights v
    intro a b
    rw [if_pos horder]
    exact decide_eq_decide.mpr Int.cast_lt.symm
  · refine sortSliceStable_filter_asc (fun f => (f.departure.timestamp : ℚ)) _ ?_ flights v
    intro a b
    rw [if_neg horder]
    exact decide_eq_decide.mpr Int.cast_lt.symm

/-- Filter-stability of `sortByArrivalTime`, for both orders. -/
theorem sortByArrivalTime_filter (flights : List Flight) (order : String) (v : ℚ) :
    (sortByArrivalTime flights order).filter (fun f => decide ((f.arrival.timestamp : ℚ) = v))
      = flights.filter (fun f => decide ((f.arrival.timestamp : ℚ) = v)) := by
  unfold sortByArrivalTime
  by_cases horder : order = "desc"
  · refine sortSliceStable_filter_desc (fun f => (f.arrival.timestamp : ℚ)) _ ?_ flights v
    intro a b
    rw [if_pos horder]
    exact decide_eq_decide.mpr Int.cast_lt.symm
  · refine sortSliceStable_filter_asc (fun f => (f.arrival.timestamp : ℚ)) _ ?_ flights v
    intro a b
    rw [if_neg horder]
    exact decide_eq_decide.mpr Int.cast_lt.symm

/-- Filter-stability of `sortByBestValue` relative to the scored list
(the list it actually rearranges), for both orders. -/
theorem sortByBestValue_filter (flights : List Flight) (order : String) (v : ℚ)
    (hlen : ¬ flights.length ≤ 1) :
    (sortByBestValue flights order).filter (fun f => decide (f.bestValueScore.getD 0 = v))
      = (calculateBestValueScores flights).filter (fun f => decide (f.bestValueScore.getD 0 = v)) := by
  unfold sortByBestValue
  rw [if_neg hlen]
  by_cases horder : order = "desc"
  · refine sortSliceStable_filter_desc (fun f => f.bestValueScore.getD 0) _ ?_ _ v
    intro a b
    simp only [if_pos horder]
  · refine sortSliceStable_filter_asc (fun f => f.bestValueScore.getD 0) _ ?_ _ v
    intro a b
    simp only [if_neg horder]

/-- C4: every sort of `applySorting` — price, duration, departure time,
arrival time or best value, ascending or descending — is stable: restricted
to any one value of the sort key, the output lists exactly the flights the
input (after score attachment, for `best_value`) lists, in the same
order. `sortKeyQ` reads the compared key off a flight and
`stabilityBaseline` is the list the sort rearranges. -/
theorem applySorting_stable (flights : List Flight) (sortOpt : SortOptions) (v : ℚ)
    (hby : sortOpt.sortBy ∈
      (["price", "duration", "departure_time", "arrival_time", "best_value"] : List String)) :
    (applySorting flights sortOpt).filter (fun f => decide (sortKeyQ sortOpt.sortBy f = v))
      = (stabilityBaseline flights sortOpt).filter
          (fun f => decide (sortKeyQ sortOpt.sortBy f = v)) := by
  by_cases hlen : flights.length ≤ 1
  · rw [applySorting, stabilityBaseline, if_pos hlen, if_pos hlen]
  · simp only [List.mem_cons, List.not_mem_nil, or_false] at hby
    rcases hby with h | h | h | h | h
    · rw [applySorting, stabilityBaseline, if_neg hlen, if_neg hlen, h, if_pos rfl,
        if_neg (by decide : ¬ ("price" : String) = "best_value")]
      exact sortByPrice_filter flights sortOpt.order v
    · rw [applySorting, stabilityBaseline, if_neg hlen, if_neg hlen, h,
        if_neg (by decide : ¬ ("duration" : String) = "price"), if_pos rfl,
        if_neg (by decide : ¬ ("duration" : String) = "best_value")]
      exact sortByDuration_filter flights sortOpt.order v
    · rw [applySorting, stabilityBaseline, if_neg hlen, if_neg hlen, h,
        if_neg (by decide : ¬ ("departure_time" : String) = "price"),
        if_neg (by decide : ¬ ("departure_time" : String) = "duration"), if_pos rfl,
        if_neg (by decide : ¬ ("departure_time" : String) = "best_value")]
      exact sortByDepartureTime_filter flights sortOpt.order v
    · rw [applySorting, stabilityBaseline, if_neg hlen, if_neg hlen, h,
        if_neg (by decide : ¬ ("arrival_time" : String) = "price"),
        if_neg (by decide : ¬ ("arrival_time" : String) = "duration"),
        if_neg (by decide : ¬ ("arrival_time" : String) = "departure_time"), if_pos rfl,
        if_neg (by decide : ¬ ("arrival_time" : String) = "best_value")]
      exact sortByArrivalTime_filter flights sortOpt.order v
    · rw [applySorting, stabilityBaseline, if_neg hlen, if_neg hlen, h,
        if_neg (by decide : ¬ ("best_value" : String) = "price"),
        if_neg (by decide : ¬ ("best_value" : String) = "duration"),
        if_neg (by decide : ¬ ("best_value" : String) = "departure_time"),
        if_neg (by decide : ¬ ("best_value" : String) = "arrival_time"), if_pos rfl,
        if_pos rfl]
      exact sortByBestValue_filter flights sortOpt.order v hlen

/-- Witness for C4 at a concrete input: sorting three flights (two of them
tied at price 500000) by ascending price keeps the tied pair in input
order. -/
theorem applySorting_stable_witness :
    ({ sortBy := "price", order := "asc" } : SortOptions).sortBy ∈
      (["price", "duration", "departure_time", "arrival_time", "best_value"] : List String)
    ∧ (applySorting [flightBA, flightAA, flightMidnight]
          { sortBy := "price", order := "asc" }).filter
        (fun f => decide (sortKeyQ "price" f = (500000 : ℚ)))
      = (stabilityBaseline [flightBA, flightAA, flightMidnight]
          { sortBy := "price", order := "asc" }).filter
        (fun f => decide (sortKeyQ "price" f = (500000 : ℚ))) :=
  ⟨by decide,
    applySorting_stable [flightBA, flightAA, flightMidnight]
      { sortBy := "price", order := "asc" } 500000 (by decide)⟩

/-! ## C2: the cache-key claim -/

/-- `compressBlock` always yields the eight updated hash words. -/
theorem compressBlock_length (H block : List ℕ) : (compressBlock H block).length = 8 := rfl

/-- Folding `compressBlock` over any block list keeps eight hash words. -/
theorem foldl_compressBlock_length (bs : List (List ℕ)) (H : List ℕ) (hH : H.length = 8) :
    (bs.foldl compressBlock H).length = 8 := by
  induction bs generalizing H with
  | nil => exact hH
  | cons b tl ih =>
      rw [List.foldl_cons]
      exact ih (compressBlock H b) (compressBlock_length H b)

/-- The word-to-bytes emission of `sha256Bytes` yields four bytes per word. -/
theorem length_flatMap_wordBytes (l : List ℕ) :
    (l.flatMap (fun w => [(w >>> 24) % 256, (w >>> 16) % 256, (w >>> 8) % 256, w % 256])).length
      = 4 * l.length := by
  induction l with
  | nil => rfl
  | cons w tl ih =>
      rw [List.flatMap_cons, List.length_append, ih, List.length_cons]
      show 4 + 4 * tl.length = 4 * (tl.length + 1)
      omega

/-- A SHA-256 digest is 32 bytes long. -/
theorem sha256Bytes_length (msg : List ℕ) : (sha256Bytes msg).length = 32 := by
  have h8 : ((toBlocksAux (shaPad msg).length (shaPad msg)).foldl compressBlock shaH0).length = 8 :=
    foldl_compressBlock_length _ _ rfl
  show (((toBlocksAux (shaPad msg).length (shaPad msg)).foldl compressBlock shaH0).flatMap
      (fun w => [(w >>> 24) % 256, (w >>> 16) % 256, (w >>> 8) % 256, w % 256])).length = 32
  rw [length_flatMap_wordBytes, h8]

/-- Every digest byte is below 256. -/
theorem sha256Bytes_lt (msg : List ℕ) : ∀ b ∈ sha256Bytes msg, b < 256 := by
  intro b hb
  simp only [sha256Bytes, List.mem_flatMap] at hb
  obtain ⟨w, _, hw⟩ := hb
  simp only [List.mem_cons, List.not_mem_nil, or_false] at hw
  rcases hw with rfl | rfl | rfl | rfl <;> exact Nat.mod_lt _ (by norm_num)

/-- The big-endian value of a byte list is below `256 ^ length`. -/
theorem bytesToNatBE_lt (bs : List ℕ) (h : ∀ b ∈ bs, b < 256) :
    bytesToNatBE bs < 256 ^ bs.length := by
  induction bs with
  | nil => norm_num [bytesToNatBE]
  | cons b tl ih =>
      have htl : bytesToNatBE tl < 256 ^ tl.length :=
        ih (fun x hx => h x (List.mem_cons_of_mem _ hx))
      have hb : b < 256 := h b (List.mem_cons_self b tl)
      calc bytesToNatBE (b :: tl) = b * 256 ^ tl.length + bytesToNatBE tl := rfl
        _ < b * 256 ^ tl.length + 256 ^ tl.length := by omega
        _ = (b + 1) * 256 ^ tl.length := by ring
        _ ≤ 256 * 256 ^ tl.length := Nat.mul_le_mul_right _ (by omega)
        _ = 256 ^ (b :: tl).length := by rw [List.length_cons, pow_succ]; ring

/-- On equal-length lists of genuine bytes, `bytesToNatBE` is injective. -/
theorem bytesToNatBE_inj (bs1 : List ℕ) : ∀ (bs2 : List ℕ), bs1.length = bs2.length →
    (∀ b ∈ bs1, b < 256) → (∀ b ∈ bs2, b < 256) →
    bytesToNatBE bs1 = bytesToNatBE bs2 → bs1 = bs2 := by
  induction bs1 with
  | nil =>
      intro bs2 hlen _ _ _
      cases bs2 with
      | nil => rfl
      | cons c tl2 => simp at hlen
  | cons b tl ih =>
      intro bs2 hlen h1 h2 hval
      cases bs2 with
      | nil => simp at hlen
      | cons c tl2 =>
          have hl : tl.length = tl2.length := by simpa using hlen
          have ht1 : bytesToNatBE tl < 256 ^ tl.length :=
            bytesToNatBE_lt tl (fun x hx => h1 x (List.mem_cons_of_mem _ hx))
          have ht2' : bytesToNatBE tl2 < 256 ^ tl2.length :=
            bytesToNatBE_lt tl2 (fun x hx => h2 x (List.mem_cons_of_mem _ hx))
          have ht2 : bytesToNatBE tl2 < 256 ^ tl.length := by rw [hl]; exact ht2'
          have hv : b * 256 ^ tl.length + bytesToNatBE tl
              = c * 256 ^ tl.length + bytesToNatBE tl2 := by
            calc b * 256 ^ tl.length + bytesToNatBE tl = bytesToNatBE (b :: tl) := rfl
              _ = bytesToNatBE (c :: tl2) := hval
              _ = c * 256 ^ tl2.length + bytesToNatBE tl2 := rfl
              _ = c * 256 ^ tl.length + bytesToNatBE tl2 := by rw [hl]
          have hbc : b = c := by
            rcases Nat.lt_trichotomy b c with hlt | heq | hgt
            · exfalso
              have hstep : b * 256 ^ tl.length + bytesToNatBE tl
                  < c * 256 ^ tl.length + bytesToNatBE tl2 := by
                calc b * 256 ^ tl.length + bytesToNatBE tl
                    < b * 256 ^ tl.length + 256 ^ tl.length := by omega
                  _ = (b + 1) * 256 ^ tl.length := by ring
                  _ ≤ c * 256 ^ tl.length := Nat.mul_le_mul_right _ (by omega)
                  _ ≤ c * 256 ^ tl.length + bytesToNatBE tl2 := Nat.le_add_right _ _
              omega
            · exact heq
            · exfalso
              have hstep : c * 256 ^ tl.length + bytesToNatBE tl2
                  < b * 256 ^ tl.length + bytesToNatBE tl := by
                calc c * 256 ^ tl.length + bytesToNatBE tl2
                    < c * 256 ^ tl.length + 256 ^ tl.length := by omega
                  _ = (c + 1) * 256 ^ tl.length := by ring
                  _ ≤ b * 256 ^ tl.length := Nat.mul_le_mul_right _ (by omega)
                  _ ≤ b * 256 ^ tl.length + bytesToNatBE tl := Nat.le_add_right _ _
              omega
          subst hbc
          have hrest : bytesToNatBE tl = bytesToNatBE tl2 := by omega
          rw [ih tl2 hl (fun x hx => h1 x (List.mem_cons_of_mem _ hx))
            (fun x hx => h2 x (List.mem_cons_of_mem _ hx)) hrest]

/-- The 16 kept digest bytes are exactly 16. -/
theorem take16_length (msg : List ℕ) : ((sha256Bytes msg).take 16).length = 16 := by
  rw [List.length_take, sha256Bytes_length]
  rfl

/-- `truncatedKeyHash` is below `256 ^ 16`: the key space is finite. -/
theorem truncatedKeyHash_lt (r : SearchRequest) : truncatedKeyHash r < 256 ^ 16 := by
  have h := bytesToNatBE_lt ((sha256Bytes (utf8Bytes (cacheKeyString r))).take 16)
    (fun b hb => sha256Bytes_lt _ b (List.mem_of_mem_take hb))
  rwa [take16_length] at h

/-- Equal truncated hashes force equal cache keys. -/
theorem key_eq_of_hash_eq (r1 r2 : SearchRequest)
    (h : truncatedKeyHash r1 = truncatedKeyHash r2) :
    generateCacheKey r1 = generateCacheKey r2 := by
  have htake : (sha256Bytes (utf8Bytes (cacheKeyString r1))).take 16
      = (sha256Bytes (utf8Bytes (cacheKeyString r2))).take 16 :=
    bytesToNatBE_inj _ _ (by rw [take16_length, take16_length])
      (fun b hb => sha256Bytes_lt _ b (List.mem_of_mem_take hb))
      (fun b hb => sha256Bytes_lt _ b (List.mem_of_mem_take hb)) h
  unfold generateCacheKey
  rw [htake]

/-- Every member of the `cabinReq` family passes `Validate`: the cabin
class is never inspected there. -/
theorem validate_cabinReq (n : ℕ) : validate today0 (cabinReq n) = none := rfl

/-- C2, counterexample to the claim as stated. The distinctness half of the
cache-key claim is false: `generateCacheKey` ranges over at most `256 ^ 16`
values while the valid requests — here the family `cabinReq n` of requests
differing only in the cabin class — are infinite, so by pigeonhole two
valid requests differing in a key field share a cache key. -/
theorem cacheKeyClaim_false : ¬ cacheKeyClaim := by
  intro hclaim
  obtain ⟨n1, n2, hne, hfe⟩ :=
    Finite.exists_ne_map_eq_of_infinite
      (fun n : ℕ => (⟨truncatedKeyHash (cabinReq n), truncatedKeyHash_lt _⟩ : Fin (256 ^ 16)))
  have hfe' : (⟨truncatedKeyHash (cabinReq n1), truncatedKeyHash_lt _⟩ : Fin (256 ^ 16))
      = ⟨truncatedKeyHash (cabinReq n2), truncatedKeyHash_lt _⟩ := hfe
  have hhash : truncatedKeyHash (cabinReq n1) = truncatedKeyHash (cabinReq n2) := by
    injection hfe'
  have hkeys : generateCacheKey (cabinReq n1) = generateCacheKey (cabinReq n2) :=
    key_eq_of_hash_eq _ _ hhash
  have hnotfive : ¬ fiveFieldsEq (cabinReq n1) (cabinReq n2) := by
    intro hfive
    have hc : (cabinReq n1).cabinClass = (cabinReq n2).cabinClass := hfive.2.2.2.2
    have hdata : List.replicate n1 'a' = List.replicate n2 'a' := congrArg String.data hc
    have hlenr := congrArg List.length hdata
    simp only [List.length_replicate] at hlenr
    exact hne hlenr
  exact (hclaim today0 (cabinReq n1) (cabinReq n2)
    (validate_cabinReq n1) (validate_cabinReq n2)).2 hnotfive hkeys

/-- A request that passes `Validate` has 3-character origin and
destination codes, 1–9 passengers, and a parseable departure date. -/
theorem validate_none_facts (today : GoDate) (r : SearchRequest)
    (h : validate today r = none) :
    r.origin.length = 3 ∧ r.destination.length = 3 ∧ 1 ≤ r.passengers ∧
      r.passengers ≤ 9 ∧ ∃ d, goParseDate r.departureDate = some d := by
  unfold validate at h
  split at h
  · exact absurd h (by simp)
  · split at h
    · exact absurd h (by simp)
    · split at h
      · exact absurd h (by simp)
      · split at h
        · exact absurd h (by simp)
        · split at h
          · exact absurd h (by simp)
          · split at h
            · exact absurd h (by simp)
            · rename_i ho hd hf hp1 hp9 hx dep hdep
              exact ⟨by simpa using ho, by simpa using hd, by omega, by omega, dep, hdep⟩

/-- A string the date parser accepts has exactly ten characters. -/
theorem goParseDateChars_length (cs : List Char) (d : GoDate)
    (h : goParseDateChars cs = some d) : cs.length = 10 := by
  unfold goParseDateChars at h
  split at h
  · rfl
  · exact absurd h (by simp)

/-- `goParseDate` success forces a ten-character date string. -/
theorem goParseDate_length (s : String) (d : GoDate) (h : goParseDate s = some d) :
    s.data.length = 10 :=
  goParseDateChars_length s.data d h

/-- Go renders each passenger count 0–9 as a single character. -/
theorem digit_repr_len : ∀ m : Fin 10, (toString m.val).data.length = 1 := by decide

/-- Go renders distinct passenger counts 0–9 as distinct strings. -/
theorem digit_repr_inj : ∀ m1 m2 : Fin 10,
    (toString m1.val).data = (toString m2.val).data → m1 = m2 := by decide

/-- Single-digit decimal rendering is injective below ten. -/
theorem passengers_repr_inj (p1 p2 : ℕ) (h1 : p1 ≤ 9) (h2 : p2 ≤ 9)
    (h : (toString p1).data = (toString p2).data) : p1 = p2 :=
  congrArg Fin.val (digit_repr_inj ⟨p1, by omega⟩ ⟨p2, by omega⟩ h)

/-- Single-digit decimal rendering has length one below ten. -/
theorem passengers_repr_len (p : ℕ) (hp : p ≤ 9) : (toString p).data.length = 1 :=
  digit_repr_len ⟨p, by omega⟩

/-- String concatenation concatenates the character lists. -/
theorem string_data_append : ∀ (s t : String), (s ++ t).data = s.data ++ t.data
  | ⟨_⟩, ⟨_⟩ => rfl

/-- Strings with equal character lists are equal. -/
theorem string_ext : ∀ {s t : String}, s.data = t.data → s = t
  | ⟨_⟩, ⟨_⟩, h => congrArg String.mk h

/-- On requests shaped as `Validate` guarantees (3-character codes,
ten-character departure date, single-digit passenger count), the pre-hash
key string determines the five key fields: the colon-separated layout can
be peeled apart because every variable segment has known length. -/
theorem cacheKeyString_inj (r1 r2 : SearchRequest)
    (ho1 : r1.origin.length = 3) (ho2 : r2.origin.length = 3)
    (hd1 : r1.destination.length = 3) (hd2 : r2.destination.length = 3)
    (hdd1 : r1.departureDate.data.length = 10) (hdd2 : r2.departureDate.data.length = 10)
    (hp1 : r1.passengers ≤ 9) (hp2 : r2.passengers ≤ 9)
    (heq : cacheKeyString r1 = cacheKeyString r2) : fiveFieldsEq r1 r2 := by
  have hdata := congrArg String.data heq
  simp only [cacheKeyString, string_data_append, List.append_assoc] at hdata
  obtain ⟨-, h1⟩ := List.append_inj hdata rfl
  obtain ⟨ho, h2⟩ := List.append_inj h1 (ho1.trans ho2.symm)
  obtain ⟨-, h3⟩ := List.append_inj h2 rfl
  obtain ⟨hd, h4⟩ := List.append_inj h3 (hd1.trans hd2.symm)
  obtain ⟨-, h5⟩ := List.append_inj h4 rfl
  obtain ⟨hdd, h6⟩ := List.append_inj h5 (hdd1.trans hdd2.symm)
  obtain ⟨-, h7⟩ := List.append_inj h6 rfl
  obtain ⟨hp, h8⟩ := List.append_inj h7
    ((passengers_repr_len _ hp1).trans (passengers_repr_len _ hp2).symm)
  obtain ⟨-, hc⟩ := List.append_inj h8 rfl
  exact ⟨string_ext ho, string_ext hd, string_ext hdd,
    passengers_repr_inj _ _ hp1 hp2 hp, string_ext hc⟩

/-- C2, amended. Over requests accepted by `Validate`, `generateCacheKey`
is determined by the five key fields (origin, destination, departure date,
passenger count, cabin class); and two valid requests that disagree on one
of the five fields always produce different pre-hash key strings. At the
level of the final key the distinctness half is unprovable and in fact
false: the key keeps only 16 of the 32 digest bytes, so over the
infinitely many valid requests two different key strings must collide,
as proved above by pigeonhole. -/
theorem generateCacheKey_five_fields (today : GoDate) (r1 r2 : SearchRequest)
    (h1 : validate today r1 = none) (h2 : validate today r2 = none) :
    (fiveFieldsEq r1 r2 → generateCacheKey r1 = generateCacheKey r2)
      ∧ (¬ fiveFieldsEq r1 r2 → cacheKeyString r1 ≠ cacheKeyString r2) := by
  obtain ⟨ho1, hd1, hp11, hp19, dep1, hdep1⟩ := validate_none_facts today r1 h1
  obtain ⟨ho2, hd2, hp21, hp29, dep2, hdep2⟩ := validate_none_facts today r2 h2
  constructor
  · rintro ⟨e1, e2, e3, e4, e5⟩
    unfold generateCacheKey cacheKeyString
    rw [e1, e2, e3, e4, e5]
  · intro hne hkey
    exact hne (cacheKeyString_inj r1 r2 ho1 ho2 hd1 hd2
      (goParseDate_length _ _ hdep1) (goParseDate_length _ _ hdep2) hp19 hp29 hkey)

/-- Witness for the amended C2 theorem: `reqA` and `reqC` (differing in
cabin class) are both valid and get different key strings. -/
theorem generateCacheKey_five_fields_witness :
    validate today0 reqA = none ∧ validate today0 reqC = none ∧
      ¬ fiveFieldsEq reqA reqC ∧ cacheKeyString reqA ≠ cacheKeyString reqC :=
  ⟨rfl, rfl, by decide,
    (generateCacheKey_five_fields today0 reqA reqC rfl rfl).2 (by decide)⟩
